import Mathlib

/-!
Penalised joint negative log-likelihood of `sn_tps.cpp` (thin-plate splines, skew-normal
family).

Shallow embedding of `src/codes/real_application/skew_normal/sn_tps.cpp`.

The C++ source is a template over the scalar type `Type`; the embedding is likewise generic
over a field `α`, with the functions the source takes from its numerical library (`exp`, `log`,
`M_PI`, `dnorm`, `dgamma`, `dsn`) collected in a record `Lib α`. Vectors are lists, matrices are
a pair of dimensions with an entry function, and an evaluation that trips a bounds or size check
of the array library returns `none`.
-/

namespace SnTps

/-! ## Scalar library and containers -/

/-- Scalar functions the template is instantiated against: the overloaded `exp` and `log`, the
constant `M_PI`, and the library log-densities in the form in which the source calls them
(`dnorm(x, mean, sd, true)`, `dgamma(y, shape, scale, true)`, `dsn(x, alpha, true)`). -/
structure Lib (α : Type) where
  exp : α → α
  log : α → α
  M_PI : α
  dnorm : α → α → α → α
  dgamma : α → α → α → α
  dsn : α → α → α

/-- Matrix (dense `matrix<Type>` or `SparseMatrix<Type>`): dimensions and entries. -/
structure Mat (α : Type) where
  rows : Nat
  cols : Nat
  coeff : Nat → Nat → α

section Containers

variable {α : Type} [Field α]

/-- Element access `v(i)` with an `int` index; out of range is a failed bounds check. -/
def coeffAt (v : List α) (i : Int) : Option α :=
  if 0 ≤ i then v[i.toNat]? else none

/-- Index-vector subset `v(ind)` (as in `beta_year(year)`): one element per entry of `ind`. -/
def index (v : List α) : List Int → Option (List α)
  | [] => some []
  | j :: js => do
    let x ← coeffAt v j
    let xs ← index v js
    some (x :: xs)

/-- Slice `v.segment(k, m)`: `m` coefficients starting at position `k`; the slice must lie
inside the vector. -/
def segment (v : List α) (k m : Int) : Option (List α) :=
  if 0 ≤ k ∧ 0 ≤ m ∧ k ≤ (v.length : Int) - m then
    some ((v.drop k.toNat).take m.toNat)
  else none

/-- Sub-matrix `S.block(i, j, p, q)`: `p` rows and `q` columns starting at `(i, j)`; the
block must lie inside the matrix. -/
def block (S : Mat α) (i j p q : Int) : Option (Mat α) :=
  if 0 ≤ i ∧ 0 ≤ p ∧ i ≤ (S.rows : Int) - p ∧ 0 ≤ j ∧ 0 ≤ q ∧ j ≤ (S.cols : Int) - q then
    some ⟨p.toNat, q.toNat, fun a b => S.coeff (i.toNat + a) (j.toNat + b)⟩
  else none

/-- Modelled from the spec: the library call `GMRF(Q).Quadform(x)` is not part of the source
file; the spec defines it as the quadratic form `x^T Q x`. -/
def Quadform (Q : Mat α) (x : List α) : α :=
  Finset.sum (Finset.range Q.rows) fun a =>
    x.getD a 0 * Finset.sum (Finset.range Q.cols) fun b => Q.coeff a b * x.getD b 0

/-- Coefficient-wise sum of two arrays; the sizes must agree. -/
def vadd (a b : List α) : Option (List α) :=
  if a.length = b.length then some (List.zipWith (fun x y => x + y) a b) else none

/-- Coefficient-wise difference of two arrays; the sizes must agree. -/
def vsub (a b : List α) : Option (List α) :=
  if a.length = b.length then some (List.zipWith (fun x y => x - y) a b) else none

/-- Matrix-vector product `A * x`; the column count must equal the vector length. -/
def matVec (A : Mat α) (x : List α) : Option (List α) :=
  if A.cols = x.length then
    some ((List.range A.rows).map fun i =>
      Finset.sum (Finset.range A.cols) fun j => A.coeff i j * x.getD j 0)
  else none

end Containers

/-! ## Density helpers defined in the source file -/

section Densities

variable {α : Type} [Field α]

/-- Lognormal density, source lines 10-15. -/
def dlognorm (L : Lib α) (x meanlog sdlog : α) (give_log : Int) : α :=
  let logres := L.dnorm (L.log x) meanlog sdlog - L.log x
  if give_log ≠ 0 then logres else L.exp logres

/-- Inverse Gaussian density, source lines 17-21. -/
def dinvgauss (L : Lib α) (x mean shape : α) (give_log : Int) : α :=
  let logres := 0.5 * L.log shape - 0.5 * L.log (2 * L.M_PI * x ^ 3)
    - (shape * (x - mean) ^ 2 / (2 * mean ^ 2 * x))
  if give_log ≠ 0 then logres else L.exp logres

/-- Cauchy density for the hyperparameters, source lines 23-31. -/
def dcauchy (L : Lib α) (x mean shape : α) (give_log : Int) : α :=
  let logres : α := 0
  let logres := logres - L.log L.M_PI
  let logres := logres - L.log shape
  let logres := logres - L.log (1 + ((x - mean) / shape) ^ 2)
  if give_log ≠ 0 then logres else L.exp logres

end Densities

/-! ## Data, parameters and outputs of `objective_function::operator()` -/

/-- The `DATA_*` section, source lines 42-52. -/
structure Data (α : Type) where
  likelihood : Int
  cpue : List α
  year : List Int
  trim : List Int
  destine : List Int
  depth : List α
  TPS : Mat α
  S : Mat α
  Sdims : List Int
  tpsReport : Mat α

/-- The `PARAMETER*` section, source lines 60-70. -/
structure Params (α : Type) where
  beta0 : α
  beta_year : List α
  beta_trim : List α
  beta_destine : List α
  beta_depth : α
  smoothCoefs : List α
  loglambda : α
  logsigma : α
  logomega : α

/-- What the evaluation takes from outside the data and the parameters: the contents of the
freshly allocated vector `log_lik` (the source never initialises it), whether the call is a
simulation call (`SIMULATE`), and the draws `rgamma(shape, scale)` of the random source, indexed
by the observation they are drawn for. -/
structure Env (α : Type) where
  log_lik0 : Nat → α
  do_simulate : Bool
  rgamma : Nat → α → α → α

/-- The `REPORT` section, source lines 148 and 169-180. -/
structure Report (α : Type) where
  nll : α
  beta0 : α
  beta_year : List α
  beta_depth : α
  loglambda : α
  logomega : α
  smoothCoefs : List α
  preds : List α
  log_lik : List α
  splines2D : List α
  cpue_sim : Option (List α)

/-- Returned scalar `jnll` together with the reported bundle. -/
structure Result (α : Type) where
  jnll : α
  report : Report α

section Objective

variable {α : Type} [Field α]

/-- Negative log prior `nlp`, source lines 82-100. -/
def priors (L : Lib α) (P : Params α) (sigma lambda omega : α) : α :=
  let nlp : α := 0
  let nlp := nlp - L.dnorm P.beta0 0 5
  let nlp := nlp - (P.beta_year.map fun b => L.dnorm b 0 1).sum
  let nlp := nlp - (P.beta_trim.map fun b => L.dnorm b 0 1).sum
  let nlp := nlp - (P.beta_destine.map fun b => L.dnorm b 0 5).sum
  let nlp := nlp - L.dnorm P.beta_depth 0 2
  let nlp := nlp - L.dnorm lambda 0 1
  let nlp := nlp - dcauchy L sigma 0 2 1
  let nlp := nlp - L.dnorm omega 0 1
  let nlp := nlp - (P.smoothCoefs.map fun b => L.dnorm b 0 1).sum
  nlp

/-- One pass of the penalty loop body, source lines 108-112, on the state `(nll, k)`. -/
def penaltyStep (S : Mat α) (smoothCoefs : List α) (loglambda lambda : α)
    (st : α × Int) (m_i : Int) : Option (α × Int) := do
  let smoothCoefs_i ← segment smoothCoefs st.2 m_i
  let S_i ← block S st.2 st.2 m_i m_i
  some (st.1 - (0.5 * (m_i : α) * loglambda - 0.5 * lambda * Quadform S_i smoothCoefs_i),
    st.2 + m_i)

/-- The penalty loop, source lines 104-113: starts from `nll = 0`, `k = 0` and returns the
accumulator and the counter after the last block. -/
def penaltyLoop (S : Mat α) (smoothCoefs : List α) (loglambda lambda : α)
    (Sdims : List Int) : Option (α × Int) :=
  Sdims.foldlM (penaltyStep S smoothCoefs loglambda lambda) (0, 0)

/-- The vector of means `mu`, source lines 117-118. -/
def linearPredictor (D : Data α) (P : Params α) : Option (List α) := do
  let by_year ← index P.beta_year D.year
  let by_trim ← index P.beta_trim D.trim
  let by_destine ← index P.beta_destine D.destine
  let spline ← matVec D.TPS P.smoothCoefs
  let s1 ← vadd (by_year.map fun x => P.beta0 + x) by_trim
  let s2 ← vadd s1 by_destine
  let s3 ← vadd s2 (D.depth.map fun d => P.beta_depth * d)
  vadd s3 spline

/-- Body of the likelihood loop for observation `i`, source lines 127-132: three independent
`if` statements on the mode, each assigning `log_lik(i)`; `old` is what `log_lik(i)` held. -/
def logLikEntry (L : Lib α) (likelihood : Int) (cpue mu z : List α) (sigma omega : α)
    (old : α) (i : Nat) : α :=
  let v := old
  let v := if likelihood = 1 then dlognorm L (cpue.getD i 0) (mu.getD i 0) sigma 1 else v
  let v := if likelihood = 2 then
      L.dgamma (cpue.getD i 0) (1 / sigma ^ 2) (L.exp (mu.getD i 0) * sigma ^ 2)
    else v
  let v := if likelihood = 3 then L.dsn (z.getD i 0 / sigma) omega - L.log sigma else v
  v

/-- The simulation loop, source lines 139-150: inside `SIMULATE` every observation is drawn
from `rgamma(1/sigma^2, mu(i)*sigma^2)` and the vector is reported; outside it nothing is
reported. -/
def simulate (E : Env α) (mu : List α) (sigma : α) (n : Nat) : Option (List α) :=
  if E.do_simulate = true ∧ 0 < n then
    some ((List.range n).map fun i => E.rgamma i (1 / sigma ^ 2) (mu.getD i 0 * sigma ^ 2))
  else none

/-- The template body `objective_function<Type>::operator()`, source lines 35-191. -/
def objective_function (L : Lib α) (E : Env α) (D : Data α) (P : Params α) :
    Option (Result α) := do
  -- transformed parameters
  let sigma := L.exp P.logsigma
  let lambda := L.exp P.loglambda
  let omega := L.exp P.logomega
  -- priors
  let nlp := priors L P sigma lambda omega
  -- penalty loop on the accumulator nll
  let st ← penaltyLoop D.S P.smoothCoefs P.loglambda lambda D.Sdims
  let nll := st.1
  -- vector of means
  let mu ← linearPredictor D P
  -- log-likelihood for the response
  let n := D.cpue.length
  let z ← vsub D.cpue mu
  let log_lik := (List.range n).map fun i =>
    logLikEntry L D.likelihood D.cpue mu z sigma omega (E.log_lik0 i) i
  -- assignment, not accumulation (line 134): the value left by the penalty loop is replaced
  let nll := Function.const α (-log_lik.sum) nll
  -- simulation
  let cpue_sim := simulate E mu sigma n
  -- derived quantities
  let preds := mu
  let splines2D ← matVec D.tpsReport P.smoothCoefs
  -- Jacobian adjustment and joint negative log-likelihood
  let nll := nll - (P.logsigma + P.logomega + P.loglambda)
  let jnll := nll + nlp
  some
    { jnll := jnll
      report :=
        { nll := nll
          beta0 := P.beta0
          beta_year := P.beta_year
          beta_depth := P.beta_depth
          loglambda := P.loglambda
          logomega := P.logomega
          smoothCoefs := P.smoothCoefs
          preds := preds
          log_lik := log_lik
          splines2D := splines2D
          cpue_sim := cpue_sim } }

end Objective

/-! ## The library over the reals -/

/-- Standard normal distribution function `pnorm`. -/
noncomputable def pnorm (x : ℝ) : ℝ :=
  ProbabilityTheory.cdf (ProbabilityTheory.gaussianReal 0 1) x

/-- Modelled from the spec: the library functions `dnorm`, `dgamma` and `dsn` are not part of
the source file; the spec names them as the log-density of a normal distribution with given
mean and scale, the log-density of a gamma distribution with given shape and scale, and the
skew-normal log-density with shape parameter `alpha`. This is the scalar library at `Type = ℝ`,
with real `exp`, `log` and `π` and these three log-densities written out over the reals. -/
noncomputable def realLib : Lib ℝ where
  exp := Real.exp
  log := Real.log
  M_PI := Real.pi
  dnorm := fun x mean sd =>
    -Real.log (Real.sqrt (2 * Real.pi)) - Real.log sd - 0.5 * ((x - mean) / sd) * ((x - mean) / sd)
  dgamma := fun y shape scale =>
    -Real.log (Real.Gamma shape) + (shape - 1) * Real.log y - y / scale - shape * Real.log scale
  dsn := fun x alpha =>
    Real.log 2
      + Real.log (Real.exp (-Real.log (Real.sqrt (2 * Real.pi)) - Real.log 1
          - 0.5 * ((x - 0) / 1) * ((x - 0) / 1)))
      + Real.log (pnorm (alpha * x))

end SnTps

/-! ## Specification-side definitions -/

namespace SnTps

section SpecDefs

variable {α : Type} [Field α]

/-- Shapes under which the sum on source line 118 is well formed: every data column has one
entry per observation, the spline design has one row per observation and one column per spline
coefficient, and every factor level is an index into its coefficient vector. -/
def PredictorShapes (D : Data α) (P : Params α) : Prop :=
  D.year.length = D.cpue.length ∧ D.trim.length = D.cpue.length ∧
  D.destine.length = D.cpue.length ∧ D.depth.length = D.cpue.length ∧
  D.TPS.rows = D.cpue.length ∧ D.TPS.cols = P.smoothCoefs.length ∧
  (∀ j ∈ D.year, 0 ≤ j ∧ j < (P.beta_year.length : Int)) ∧
  (∀ j ∈ D.trim, 0 ≤ j ∧ j < (P.beta_trim.length : Int)) ∧
  (∀ j ∈ D.destine, 0 ≤ j ∧ j < (P.beta_destine.length : Int))

/-- Entry `i` of the sum on source line 118, written out. -/
def muEntry (D : Data α) (P : Params α) (i : Nat) : α :=
  P.beta0 + P.beta_year.getD (D.year.getD i 0).toNat 0
    + P.beta_trim.getD (D.trim.getD i 0).toNat 0
    + P.beta_destine.getD (D.destine.getD i 0).toNat 0
    + P.beta_depth * D.depth.getD i 0
    + Finset.sum (Finset.range P.smoothCoefs.length) fun j =>
        D.TPS.coeff i j * P.smoothCoefs.getD j 0

/-- The vector `log_lik` after the likelihood loop, source lines 123-133. -/
def logLikVector (L : Lib α) (E : Env α) (D : Data α) (P : Params α) (mu z : List α) :
    List α :=
  (List.range D.cpue.length).map fun i =>
    logLikEntry L D.likelihood D.cpue mu z (L.exp P.logsigma) (L.exp P.logomega) (E.log_lik0 i) i

/-- Offset of block `i`: the sum `m_0 + ... + m_(i-1)` of the dimensions before it. -/
def blockOffset (dims : List Nat) (i : Nat) : Nat := (dims.take i).sum

/-- Quadratic form `coef_i^T S_i coef_i` of the block of dimension `m` at offset `off`, written
on the entries of the whole coefficient vector and the whole penalty matrix. -/
def blockQuad (S : Mat α) (coefs : List α) (off m : Nat) : α :=
  Finset.sum (Finset.range m) fun a =>
    coefs.getD (off + a) 0 *
      Finset.sum (Finset.range m) fun b => S.coeff (off + a) (off + b) * coefs.getD (off + b) 0

/-- Contribution `-(0.5 * m * loglambda - 0.5 * lambda * Q)` of one block. -/
def blockTerm (S : Mat α) (coefs : List α) (loglambda lambda : α) (off m : Nat) : α :=
  -(0.5 * (m : α) * loglambda - 0.5 * lambda * blockQuad S coefs off m)

/-- Sum over the blocks of their contributions, block `i` sitting at offset
`base + m_0 + ... + m_(i-1)`. -/
def penaltySum (S : Mat α) (coefs : List α) (loglambda lambda : α) (base : Nat)
    (dims : List Nat) : α :=
  Finset.sum (Finset.range dims.length) fun i =>
    blockTerm S coefs loglambda lambda (base + blockOffset dims i) (dims.getD i 0)

/-- Shapes under which the penalty loop runs through: block dimensions are non-negative and the
blocks together fit into the coefficient vector and into the penalty matrix. -/
def PenaltyShapes (D : Data α) (P : Params α) : Prop :=
  (∀ m ∈ D.Sdims, 0 ≤ m) ∧ D.Sdims.sum ≤ (P.smoothCoefs.length : Int) ∧
  D.Sdims.sum ≤ (D.S.rows : Int) ∧ D.Sdims.sum ≤ (D.S.cols : Int)

/-- Shapes of data and parameters under which every array operation of the evaluation is well
formed. -/
def InputShapes (D : Data α) (P : Params α) : Prop :=
  PredictorShapes D P ∧ PenaltyShapes D P ∧ D.tpsReport.cols = P.smoothCoefs.length

/-- Transformed parameters `(sigma, lambda, omega)`, source lines 76-78. -/
def transformedParameters (L : Lib α) (P : Params α) : α × α × α :=
  (L.exp P.logsigma, L.exp P.loglambda, L.exp P.logomega)

/-- Closed-form lognormal negative log-likelihood
`-sum_i [ log N(log y_i ; mu_i, sigma) - log y_i ]`. -/
def lognormalNll (L : Lib α) (y mu : List α) (sigma : α) : α :=
  -((List.range y.length).map fun i =>
      L.dnorm (L.log (y.getD i 0)) (mu.getD i 0) sigma - L.log (y.getD i 0)).sum

end SpecDefs

section Scenario

variable (α : Type) [Field α]

/-- Data of the spec's test scenario: three observations with response `[1, 2, 3]`, every factor
level `0`, depth `0`, a `3 x 2` spline design, the `2 x 2` identity as penalty matrix; the mode
and the block dimensions are left open. -/
def scenarioData (mode : Int) (Sdims : List Int) : Data α where
  likelihood := mode
  cpue := [1, 2, 3]
  year := [0, 0, 0]
  trim := [0, 0, 0]
  destine := [0, 0, 0]
  depth := [0, 0, 0]
  TPS := ⟨3, 2, fun _ _ => 1⟩
  S := ⟨2, 2, fun a b => if a = b then 1 else 0⟩
  Sdims := Sdims
  tpsReport := ⟨1, 2, fun _ _ => 1⟩

/-- Parameters of the spec's test scenario: intercept and all effects `0`, one coefficient per
factor, spline coefficients `[0, 0]`; the three log-scale hyperparameters are left open. -/
def scenarioParams (loglambda logsigma logomega : α) : Params α where
  beta0 := 0
  beta_year := [0]
  beta_trim := [0]
  beta_destine := [0]
  beta_depth := 0
  smoothCoefs := [0, 0]
  loglambda := loglambda
  logsigma := logsigma
  logomega := logomega

/-- An evaluation call outside simulation whose fresh `log_lik` vector holds `c` everywhere. -/
def plainEnv (c : α) : Env α where
  log_lik0 := fun _ => c
  do_simulate := false
  rgamma := fun _ _ _ => 0

end Scenario

end SnTps

/-! ## Container lemmas -/

namespace SnTps

section ContainerLemmas

variable {α : Type} [Field α]

theorem coeffAt_eq_some_iff (v : List α) (i : Int) (x : α) :
    coeffAt v i = some x ↔ 0 ≤ i ∧ i.toNat < v.length ∧ v.getD i.toNat 0 = x := by
  unfold coeffAt
  by_cases h : 0 ≤ i
  · simp only [h, if_true, true_and]
    by_cases hl : i.toNat < v.length
    · simp [List.getElem?_eq_getElem hl, List.getD_eq_getElem v 0 hl, hl]
    · simp [List.getElem?_eq_none (not_lt.mp hl), hl]
  · simp [h]

theorem index_length {β : Type} (v : List β) (ind : List Int) (xs : List β)
    (h : index v ind = some xs) :
    xs.length = ind.length := by
  induction ind generalizing xs with
  | nil => simp [index] at h; simp [← h]
  | cons j js ih =>
    simp only [index, Option.bind_eq_bind, Option.bind_eq_some] at h
    obtain ⟨x, _, ys, hys, hxs⟩ := h
    simp only [Option.some.injEq] at hxs
    subst hxs
    simp [ih ys hys]

theorem index_getD (v : List α) (ind : List Int) (xs : List α) (h : index v ind = some xs)
    (i : Nat) (hi : i < ind.length) :
    0 ≤ ind.getD i 0 ∧ (ind.getD i 0).toNat < v.length ∧
      xs.getD i 0 = v.getD (ind.getD i 0).toNat 0 := by
  induction ind generalizing xs i with
  | nil => simp at hi
  | cons j js ih =>
    simp only [index, Option.bind_eq_bind, Option.bind_eq_some] at h
    obtain ⟨x, hx, ys, hys, hxs⟩ := h
    simp only [Option.some.injEq] at hxs
    subst hxs
    rw [coeffAt_eq_some_iff] at hx
    cases i with
    | zero => exact ⟨by simpa using hx.1, by simpa using hx.2.1, by simpa using hx.2.2.symm⟩
    | succ i =>
      have := ih ys hys i (by simpa using hi)
      simpa using this

theorem index_isSome (v : List α) (ind : List Int)
    (h : ∀ j ∈ ind, 0 ≤ j ∧ j < (v.length : Int)) : ∃ xs, index v ind = some xs := by
  induction ind with
  | nil => exact ⟨[], rfl⟩
  | cons j js ih =>
    obtain ⟨ys, hys⟩ := ih (fun a ha => h a (List.mem_cons_of_mem _ ha))
    have hj := h j (List.mem_cons_self _ _)
    have hx : coeffAt v j = some (v.getD j.toNat 0) := by
      rw [coeffAt_eq_some_iff]
      refine ⟨hj.1, ?_, rfl⟩
      omega
    exact ⟨v.getD j.toNat 0 :: ys, by simp [index, hx, hys]⟩

theorem vadd_eq_some (a b c : List α) (h : vadd a b = some c) :
    a.length = b.length ∧ c.length = a.length ∧
      ∀ i, i < a.length → c.getD i 0 = a.getD i 0 + b.getD i 0 := by
  unfold vadd at h
  split at h
  · rename_i hl
    simp only [Option.some.injEq] at h
    subst h
    refine ⟨hl, by simp [hl], ?_⟩
    intro i hi
    have hb : i < b.length := hl ▸ hi
    rw [List.getD_eq_getElem _ 0 (by simp [hi, hb]), List.getD_eq_getElem _ 0 hi,
      List.getD_eq_getElem _ 0 hb]
    simp
  · simp at h

theorem vsub_eq_some (a b c : List α) (h : vsub a b = some c) :
    a.length = b.length ∧ c.length = a.length ∧
      ∀ i, i < a.length → c.getD i 0 = a.getD i 0 - b.getD i 0 := by
  unfold vsub at h
  split at h
  · rename_i hl
    simp only [Option.some.injEq] at h
    subst h
    refine ⟨hl, by simp [hl], ?_⟩
    intro i hi
    have hb : i < b.length := hl ▸ hi
    rw [List.getD_eq_getElem _ 0 (by simp [hi, hb]), List.getD_eq_getElem _ 0 hi,
      List.getD_eq_getElem _ 0 hb]
    simp
  · simp at h

theorem matVec_eq_some (A : Mat α) (x y : List α) (h : matVec A x = some y) :
    A.cols = x.length ∧ y.length = A.rows ∧
      ∀ i, i < A.rows →
        y.getD i 0 = Finset.sum (Finset.range A.cols) fun j => A.coeff i j * x.getD j 0 := by
  unfold matVec at h
  split at h
  · rename_i hl
    simp only [Option.some.injEq] at h
    subst h
    refine ⟨hl, by simp, ?_⟩
    intro i hi
    rw [List.getD_eq_getElem _ 0 (by simp [hi])]
    simp
  · simp at h

theorem getD_map_of_lt (f : α → α) (a : List α) (i : Nat) (hi : i < a.length) :
    (a.map f).getD i 0 = f (a.getD i 0) := by
  rw [List.getD_eq_getElem _ 0 (by simp [hi]), List.getD_eq_getElem _ 0 hi]
  simp

end ContainerLemmas

end SnTps

/-! ## The vector of means -/

namespace SnTps

section PredictorLemmas

variable {α : Type} [Field α]

theorem linearPredictor_eq_some (D : Data α) (P : Params α) (mu : List α)
    (h : linearPredictor D P = some mu) :
    mu.length = D.year.length ∧ D.trim.length = D.year.length ∧
    D.destine.length = D.year.length ∧ D.depth.length = D.year.length ∧
    D.TPS.rows = D.year.length ∧ D.TPS.cols = P.smoothCoefs.length ∧
    ∀ i, i < D.year.length → mu.getD i 0 = muEntry D P i := by
  simp only [linearPredictor, Option.bind_eq_bind, Option.bind_eq_some] at h
  obtain ⟨y, hy, t, ht, d, hd, s, hs, s1, h1, s2, h2, s3, h3, h4⟩ := h
  have ly := index_length _ _ _ hy
  have lt := index_length _ _ _ ht
  have ld := index_length _ _ _ hd
  obtain ⟨hc, ls, es⟩ := matVec_eq_some _ _ _ hs
  obtain ⟨l1, l1a, e1⟩ := vadd_eq_some _ _ _ h1
  obtain ⟨l2, l2a, e2⟩ := vadd_eq_some _ _ _ h2
  obtain ⟨l3, l3a, e3⟩ := vadd_eq_some _ _ _ h3
  obtain ⟨l4, l4a, e4⟩ := vadd_eq_some _ _ _ h4
  simp only [List.length_map] at l1 l1a l3
  have hs1 : s1.length = D.year.length := by omega
  have hs2 : s2.length = D.year.length := by omega
  have hs3 : s3.length = D.year.length := by omega
  refine ⟨by omega, by omega, by omega, by omega, by omega, hc, ?_⟩
  intro i hi
  rw [e4 i (by omega), e3 i (by omega), e2 i (by omega), e1 i (by simp; omega),
    getD_map_of_lt _ _ _ (by omega), getD_map_of_lt _ _ _ (by omega),
    (index_getD _ _ _ hy i hi).2.2, (index_getD _ _ _ ht i (by omega)).2.2,
    (index_getD _ _ _ hd i (by omega)).2.2, es i (by omega), hc]
  rfl

theorem linearPredictor_isSome (D : Data α) (P : Params α) (h : PredictorShapes D P) :
    ∃ mu, linearPredictor D P = some mu := by
  obtain ⟨hy, ht, hd, hdep, hr, hc, by_, bt, bd⟩ := h
  obtain ⟨y, ey⟩ := index_isSome P.beta_year D.year by_
  obtain ⟨t, et⟩ := index_isSome P.beta_trim D.trim bt
  obtain ⟨d, ed⟩ := index_isSome P.beta_destine D.destine bd
  have ly := index_length _ _ _ ey
  have lt := index_length _ _ _ et
  have ld := index_length _ _ _ ed
  simp only [linearPredictor, Option.bind_eq_bind, ey, et, ed, Option.some_bind, matVec, hc,
    if_true, vadd, List.length_map, List.length_zipWith, List.length_range]
  simp [ly, lt, ld, hy, ht, hd, hdep, hr]

end PredictorLemmas

end SnTps

/-! ## Structure of one evaluation -/

namespace SnTps

section ObjectiveLemmas

variable {α : Type} [Field α]

theorem objective_function_of_parts (L : Lib α) (E : Env α) (D : Data α) (P : Params α)
    (st : α × Int) (mu z spl : List α)
    (hpen : penaltyLoop D.S P.smoothCoefs P.loglambda (L.exp P.loglambda) D.Sdims = some st)
    (hmu : linearPredictor D P = some mu) (hz : vsub D.cpue mu = some z)
    (hspl : matVec D.tpsReport P.smoothCoefs = some spl) :
    objective_function L E D P = some
      { jnll := -(logLikVector L E D P mu z).sum - (P.logsigma + P.logomega + P.loglambda)
          + priors L P (L.exp P.logsigma) (L.exp P.loglambda) (L.exp P.logomega)
        report :=
          { nll := -(logLikVector L E D P mu z).sum - (P.logsigma + P.logomega + P.loglambda)
            beta0 := P.beta0
            beta_year := P.beta_year
            beta_depth := P.beta_depth
            loglambda := P.loglambda
            logomega := P.logomega
            smoothCoefs := P.smoothCoefs
            preds := mu
            log_lik := logLikVector L E D P mu z
            splines2D := spl
            cpue_sim := simulate E mu (L.exp P.logsigma) D.cpue.length } } := by
  simp [objective_function, hpen, hmu, hz, hspl, logLikVector]

theorem objective_function_parts (L : Lib α) (E : Env α) (D : Data α) (P : Params α)
    (r : Result α) (h : objective_function L E D P = some r) :
    ∃ st mu z spl,
      penaltyLoop D.S P.smoothCoefs P.loglambda (L.exp P.loglambda) D.Sdims = some st ∧
      linearPredictor D P = some mu ∧ vsub D.cpue mu = some z ∧
      matVec D.tpsReport P.smoothCoefs = some spl ∧
      r.report.preds = mu ∧ r.report.log_lik = logLikVector L E D P mu z ∧
      r.report.splines2D = spl ∧
      r.report.cpue_sim = simulate E mu (L.exp P.logsigma) D.cpue.length ∧
      r.report.nll = -(r.report.log_lik).sum - (P.logsigma + P.logomega + P.loglambda) ∧
      r.jnll = r.report.nll
        + priors L P (L.exp P.logsigma) (L.exp P.loglambda) (L.exp P.logomega) := by
  cases hpen : penaltyLoop D.S P.smoothCoefs P.loglambda (L.exp P.loglambda) D.Sdims with
  | none => simp [objective_function, hpen] at h
  | some st =>
    cases hmu : linearPredictor D P with
    | none => simp [objective_function, hpen, hmu] at h
    | some mu =>
      cases hz : vsub D.cpue mu with
      | none => simp [objective_function, hpen, hmu, hz] at h
      | some z =>
        cases hspl : matVec D.tpsReport P.smoothCoefs with
        | none => simp [objective_function, hpen, hmu, hz, hspl] at h
        | some spl =>
          rw [objective_function_of_parts L E D P st mu z spl hpen hmu hz hspl] at h
          simp only [Option.some.injEq] at h
          subst h
          refine ⟨st, mu, z, spl, ?_, ?_, ?_, ?_, rfl, rfl, rfl, rfl, rfl, rfl⟩ <;>
            first | rfl | assumption

theorem objective_function_none_of_penalty (L : Lib α) (E : Env α) (D : Data α) (P : Params α)
    (hpen : penaltyLoop D.S P.smoothCoefs P.loglambda (L.exp P.loglambda) D.Sdims = none) :
    objective_function L E D P = none := by
  simp [objective_function, hpen]

end ObjectiveLemmas

end SnTps

/-! ## The penalty loop -/

namespace SnTps

section PenaltyLemmas

variable {α : Type} [Field α]

theorem getD_drop_take (v : List α) (k m a : Nat) (ha : a < m) :
    ((v.drop k).take m).getD a 0 = v.getD (k + a) 0 := by
  simp [List.getD_eq_getElem?_getD, List.getElem?_take, ha]

theorem Quadform_block_segment (S : Mat α) (coefs : List α) (k m : Nat) :
    Quadform ⟨m, m, fun a b => S.coeff (k + a) (k + b)⟩ ((coefs.drop k).take m)
      = blockQuad S coefs k m := by
  unfold Quadform blockQuad
  refine Finset.sum_congr rfl fun a ha => ?_
  rw [getD_drop_take _ _ _ _ (Finset.mem_range.mp ha)]
  congr 1
  refine Finset.sum_congr rfl fun b hb => ?_
  rw [getD_drop_take _ _ _ _ (Finset.mem_range.mp hb)]

theorem penaltyStep_ofNat (S : Mat α) (coefs : List α) (loglambda lambda acc : α) (k m : Nat)
    (hc : k + m ≤ coefs.length) (hr : k + m ≤ S.rows) (hcol : k + m ≤ S.cols) :
    penaltyStep S coefs loglambda lambda (acc, (k : Int)) (m : Int)
      = some (acc + blockTerm S coefs loglambda lambda k m, ((k + m : Nat) : Int)) := by
  have h1 : (k : Int) ≤ (coefs.length : Int) - (m : Int) := by omega
  have h2 : (k : Int) ≤ (S.rows : Int) - (m : Int) := by omega
  have h3 : (k : Int) ≤ (S.cols : Int) - (m : Int) := by omega
  simp only [penaltyStep, segment, block, Int.natCast_nonneg, h1, h2, h3, and_self, if_true,
    Int.toNat_ofNat, Option.bind_eq_bind, Option.some_bind, Quadform_block_segment, blockTerm,
    Int.cast_natCast, Nat.cast_add]
  congr 2
  ring

theorem foldlM_penaltyStep_ofNat (S : Mat α) (coefs : List α) (loglambda lambda : α)
    (dims : List Nat) (acc : α) (k : Nat)
    (hc : k + dims.sum ≤ coefs.length) (hr : k + dims.sum ≤ S.rows)
    (hcol : k + dims.sum ≤ S.cols) :
    (dims.map fun (m : Nat) => (m : Int)).foldlM (penaltyStep S coefs loglambda lambda) (acc, (k : Int))
      = some (acc + penaltySum S coefs loglambda lambda k dims, ((k + dims.sum : Nat) : Int)) := by
  induction dims generalizing acc k with
  | nil => simp [penaltySum]
  | cons m ds ih =>
    simp only [List.sum_cons] at hc hr hcol
    rw [List.map_cons, List.foldlM_cons,
      penaltyStep_ofNat S coefs loglambda lambda acc k m (by omega) (by omega) (by omega)]
    simp only [Option.bind_eq_bind, Option.some_bind]
    rw [ih _ (k + m) (by omega) (by omega) (by omega)]
    have hs : penaltySum S coefs loglambda lambda k (m :: ds)
        = blockTerm S coefs loglambda lambda k m
          + penaltySum S coefs loglambda lambda (k + m) ds := by
      unfold penaltySum
      rw [List.length_cons, Finset.sum_range_succ', add_comm]
      simp [blockOffset, Nat.add_assoc]
    rw [hs, List.sum_cons]
    congr 2
    · ring
    · omega

theorem penaltyLoop_ofNat (S : Mat α) (coefs : List α) (loglambda lambda : α) (dims : List Nat)
    (hc : dims.sum ≤ coefs.length) (hr : dims.sum ≤ S.rows) (hcol : dims.sum ≤ S.cols) :
    penaltyLoop S coefs loglambda lambda (dims.map fun (m : Nat) => (m : Int))
      = some (penaltySum S coefs loglambda lambda 0 dims, (dims.sum : Int)) := by
  have := foldlM_penaltyStep_ofNat S coefs loglambda lambda dims 0 0
    (by omega) (by omega) (by omega)
  simpa [penaltyLoop] using this

theorem foldlM_penaltyStep_none (S : Mat α) (coefs : List α) (loglambda lambda : α)
    (Sdims : List Int) (st : α × Int) (h0 : 0 ≤ st.2) (hk : st.2 ≤ (coefs.length : Int))
    (h : (coefs.length : Int) < st.2 + Sdims.sum) :
    Sdims.foldlM (penaltyStep S coefs loglambda lambda) st = none := by
  induction Sdims generalizing st with
  | nil => simp at h; omega
  | cons m ms ih =>
    rw [List.foldlM_cons]
    cases hstep : penaltyStep S coefs loglambda lambda st m with
    | none => rfl
    | some st1 =>
      simp only [Option.bind_eq_bind, Option.some_bind]
      simp only [penaltyStep, Option.bind_eq_bind, Option.bind_eq_some] at hstep
      obtain ⟨c, hseg, Si, _, hst1⟩ := hstep
      simp only [Option.some.injEq] at hst1
      subst hst1
      unfold segment at hseg
      split at hseg
      · rename_i hb
        apply ih
        · show 0 ≤ st.2 + m
          omega
        · show st.2 + m ≤ (coefs.length : Int)
          omega
        · show (coefs.length : Int) < st.2 + m + ms.sum
          simp only [List.sum_cons] at h
          omega
      · simp at hseg

theorem penaltyLoop_none_of_sum_gt (S : Mat α) (coefs : List α) (loglambda lambda : α)
    (Sdims : List Int) (h : (coefs.length : Int) < Sdims.sum) :
    penaltyLoop S coefs loglambda lambda Sdims = none := by
  unfold penaltyLoop
  exact foldlM_penaltyStep_none S coefs loglambda lambda Sdims (0, 0) (le_refl _)
    (by simp) (by simpa using h)

end PenaltyLemmas

end SnTps

/-! ## Inputs on which the evaluation returns -/

namespace SnTps

section Totality

variable {α : Type} [Field α]

theorem map_toNat_cast (l : List Int) (h : ∀ m ∈ l, 0 ≤ m) :
    (l.map Int.toNat).map (fun (m : Nat) => (m : Int)) = l ∧
      (((l.map Int.toNat).sum : Nat) : Int) = l.sum := by
  induction l with
  | nil => simp
  | cons a as ih =>
    have ha : 0 ≤ a := h a (List.mem_cons_self _ _)
    obtain ⟨h1, h2⟩ := ih (fun m hm => h m (List.mem_cons_of_mem _ hm))
    constructor
    · simp only [List.map_cons, List.map_map] at h1 ⊢
      rw [h1, Int.toNat_of_nonneg ha]
    · simp only [List.map_cons, List.sum_cons, Nat.cast_add, h2, Int.toNat_of_nonneg ha]

theorem penaltyLoop_isSome (D : Data α) (P : Params α) (lambda : α) (h : PenaltyShapes D P) :
    ∃ st, penaltyLoop D.S P.smoothCoefs P.loglambda lambda D.Sdims = some st := by
  obtain ⟨hn, hc, hr, hcol⟩ := h
  obtain ⟨h1, h2⟩ := map_toNat_cast D.Sdims hn
  have := penaltyLoop_ofNat D.S P.smoothCoefs P.loglambda lambda (D.Sdims.map Int.toNat)
    (by omega) (by omega) (by omega)
  rw [h1] at this
  exact ⟨_, this⟩

theorem objective_function_isSome (L : Lib α) (E : Env α) (D : Data α) (P : Params α)
    (h : InputShapes D P) : ∃ r, objective_function L E D P = some r := by
  obtain ⟨hp, hpen, ht⟩ := h
  obtain ⟨st, hst⟩ := penaltyLoop_isSome D P (L.exp P.loglambda) hpen
  obtain ⟨mu, hmu⟩ := linearPredictor_isSome D P hp
  have hl := (linearPredictor_eq_some D P mu hmu).1
  have hz : vsub D.cpue mu = some (List.zipWith (fun x y => x - y) D.cpue mu) := by
    simp [vsub, hl, hp.1]
  have hspl : ∃ spl, matVec D.tpsReport P.smoothCoefs = some spl := by
    simp [matVec, ht]
  obtain ⟨spl, hspl⟩ := hspl
  exact ⟨_, objective_function_of_parts L E D P st mu _ spl hst hmu hz hspl⟩

theorem getD_logLikVector (L : Lib α) (E : Env α) (D : Data α) (P : Params α) (mu z : List α)
    (i : Nat) (hi : i < D.cpue.length) :
    (logLikVector L E D P mu z).getD i 0 =
      logLikEntry L D.likelihood D.cpue mu z (L.exp P.logsigma) (L.exp P.logomega)
        (E.log_lik0 i) i := by
  unfold logLikVector
  rw [List.getD_eq_getElem _ 0 (by simp [hi])]
  simp

end Totality

end SnTps

namespace SnTps

section ScenarioLemmas

variable {α : Type} [Field α]

theorem scenario_linearPredictor (mode : Int) (Sdims : List Int) (ll ls lo : α) :
    linearPredictor (scenarioData α mode Sdims) (scenarioParams α ll ls lo) = some [0, 0, 0] := by
  simp [linearPredictor, scenarioData, scenarioParams, index, coeffAt, matVec, vadd,
    Finset.sum_range_succ, List.range_succ]

theorem scenario_vsub (mode : Int) (Sdims : List Int) :
    vsub (scenarioData α mode Sdims).cpue [0, 0, 0] = some [1, 2, 3] := by
  simp [vsub, scenarioData]

theorem scenario_splines (mode : Int) (Sdims : List Int) (ll ls lo : α) :
    matVec (scenarioData α mode Sdims).tpsReport (scenarioParams α ll ls lo).smoothCoefs
      = some [0] := by
  simp [matVec, scenarioData, scenarioParams, Finset.sum_range_succ, List.range_succ]

theorem scenario_penaltyLoop_two (mode : Int) (ll ls lo lam : α) :
    penaltyLoop (scenarioData α mode [2]).S (scenarioParams α ll ls lo).smoothCoefs ll lam
      (scenarioData α mode [2]).Sdims = some (-(0.5 * 2 * ll), 2) := by
  have := penaltyLoop_ofNat (scenarioData α mode [2]).S (scenarioParams α ll ls lo).smoothCoefs
    ll lam [2] (by simp [scenarioParams]) (by simp [scenarioData]) (by simp [scenarioData])
  simpa [penaltySum, blockTerm, blockQuad, blockOffset, scenarioData, scenarioParams,
    Finset.sum_range_succ] using this

theorem scenario_penaltyLoop_one (mode : Int) (ll ls lo lam : α) :
    penaltyLoop (scenarioData α mode [1]).S (scenarioParams α ll ls lo).smoothCoefs ll lam
      (scenarioData α mode [1]).Sdims = some (-(0.5 * ll), 1) := by
  have := penaltyLoop_ofNat (scenarioData α mode [1]).S (scenarioParams α ll ls lo).smoothCoefs
    ll lam [1] (by simp [scenarioParams]) (by simp [scenarioData]) (by simp [scenarioData])
  simpa [penaltySum, blockTerm, blockQuad, blockOffset, scenarioData, scenarioParams,
    Finset.sum_range_succ] using this

end ScenarioLemmas

end SnTps

namespace SnTps

section Evaluation

variable {α : Type} [Field α]

/-- On well-shaped inputs the evaluation returns, and the returned bundle is described entry by
entry. -/
theorem objective_function_spec (L : Lib α) (E : Env α) (D : Data α) (P : Params α)
    (h : InputShapes D P) :
    ∃ r mu z, objective_function L E D P = some r ∧
      linearPredictor D P = some mu ∧ mu.length = D.cpue.length ∧
      (∀ i, i < D.cpue.length → mu.getD i 0 = muEntry D P i) ∧
      vsub D.cpue mu = some z ∧
      (∀ i, i < D.cpue.length → z.getD i 0 = D.cpue.getD i 0 - mu.getD i 0) ∧
      r.report.preds = mu ∧ r.report.log_lik = logLikVector L E D P mu z ∧
      r.report.nll = -(r.report.log_lik).sum - (P.logsigma + P.logomega + P.loglambda) ∧
      r.jnll = r.report.nll
        + priors L P (L.exp P.logsigma) (L.exp P.loglambda) (L.exp P.logomega) := by
  obtain ⟨r, hr⟩ := objective_function_isSome L E D P h
  obtain ⟨st, mu, z, spl, _, hmu, hz, _, hpreds, hll, _, _, hnll, hj⟩ :=
    objective_function_parts L E D P r hr
  obtain ⟨l1, _, _, _, _, _, hentry⟩ := linearPredictor_eq_some D P mu hmu
  obtain ⟨_, _, hzent⟩ := vsub_eq_some _ _ _ hz
  have hy := h.1.1
  refine ⟨r, mu, z, hr, hmu, by omega, ?_, hz, hzent, hpreds, hll, hnll, hj⟩
  intro i hi
  exact hentry i (by omega)

theorem logLikVector_mode1 (L : Lib α) (E : Env α) (D : Data α) (P : Params α) (mu z : List α)
    (hm : D.likelihood = 1) :
    -(logLikVector L E D P mu z).sum = lognormalNll L D.cpue mu (L.exp P.logsigma) := by
  simp [logLikVector, lognormalNll, logLikEntry, hm, dlognorm]

theorem logLikVector_mode_other (L : Lib α) (E : Env α) (D : Data α) (P : Params α)
    (mu z : List α) (h1 : D.likelihood ≠ 1) (h2 : D.likelihood ≠ 2) (h3 : D.likelihood ≠ 3) :
    logLikVector L E D P mu z = (List.range D.cpue.length).map E.log_lik0 := by
  simp [logLikVector, logLikEntry, h1, h2, h3]

theorem scenario_shapes (mode : Int) (ll ls lo : α) :
    InputShapes (scenarioData α mode [2]) (scenarioParams α ll ls lo) := by
  simp [InputShapes, PredictorShapes, PenaltyShapes, scenarioData, scenarioParams]

theorem scenario_shapes_one (mode : Int) (ll ls lo : α) :
    InputShapes (scenarioData α mode [1]) (scenarioParams α ll ls lo) := by
  simp [InputShapes, PredictorShapes, PenaltyShapes, scenarioData, scenarioParams]

end Evaluation

end SnTps

/-! ## Claims -/

namespace SnTps

/-- C1 (defect of the code, evaluated at the failing input). The spec asks for the returned
objective to be the negative log-likelihood plus the accumulated penalty terms plus the prior
term minus the three log-scale parameters. In the spec's scenario with `loglambda = 1` the
penalty loop leaves `-1` on the accumulator, but the returned `jnll` is the negative
log-likelihood plus the prior minus the Jacobian term only: the assignment on line 134 has
replaced the accumulated penalty, and the returned value differs from the specified one. -/
theorem C1_penalty_missing_from_objective :
    ∃ r, objective_function realLib (plainEnv ℝ 0) (scenarioData ℝ 1 [2])
        (scenarioParams ℝ 1 0 0) = some r ∧
      penaltyLoop (scenarioData ℝ 1 [2]).S (scenarioParams ℝ 1 0 0).smoothCoefs 1
        (realLib.exp 1) (scenarioData ℝ 1 [2]).Sdims = some (-1, 2) ∧
      r.jnll = -(r.report.log_lik).sum
        + priors realLib (scenarioParams ℝ 1 0 0) (realLib.exp 0) (realLib.exp 1) (realLib.exp 0)
        - (0 + 1 + 0) ∧
      r.jnll ≠ -(r.report.log_lik).sum + (-1)
        + priors realLib (scenarioParams ℝ 1 0 0) (realLib.exp 0) (realLib.exp 1) (realLib.exp 0)
        - (0 + 1 + 0) := by
  obtain ⟨r, mu, z, hr, _, _, _, _, _, _, _, hnll, hj⟩ :=
    objective_function_spec realLib (plainEnv ℝ 0) (scenarioData ℝ 1 [2])
      (scenarioParams ℝ 1 0 0) (scenario_shapes 1 1 0 0)
  have hpen := scenario_penaltyLoop_two (α := ℝ) 1 1 0 0 (realLib.exp 1)
  have hval : r.jnll = -(r.report.log_lik).sum
      + priors realLib (scenarioParams ℝ 1 0 0) (realLib.exp 0) (realLib.exp 1) (realLib.exp 0)
      - (0 + 1 + 0) := by
    rw [hj, hnll]
    simp only [scenarioParams]
    ring
  refine ⟨r, hr, ?_, hval, ?_⟩
  · rw [hpen]
    norm_num
  · rw [hval]
    intro hcontra
    linarith

/-- C2 (counterexample). With mode `0`, outside `{1, 2, 3}`, and three observations the
evaluation raises no error: it returns a value in which every `log_lik(i)` is the content the
vector had before the loop (here `7`). -/
theorem C2_mode_zero_returns :
    ∃ r, objective_function realLib (plainEnv ℝ 7) (scenarioData ℝ 0 [2])
        (scenarioParams ℝ 0 0 0) = some r ∧ r.report.log_lik = [7, 7, 7] := by
  obtain ⟨r, mu, z, hr, _, _, _, _, _, _, hll, _, _⟩ :=
    objective_function_spec realLib (plainEnv ℝ 7) (scenarioData ℝ 0 [2])
      (scenarioParams ℝ 0 0 0) (scenario_shapes 0 0 0 0)
  refine ⟨r, hr, ?_⟩
  rw [hll, logLikVector_mode_other _ _ _ _ _ _ (by simp [scenarioData]) (by simp [scenarioData])
    (by simp [scenarioData])]
  simp [scenarioData, plainEnv, List.range_succ]

/-- C2 (amended). For every mode outside `{1, 2, 3}` and all well-shaped data and parameters the
evaluation returns a value and raises no error: none of the three branches assigns `log_lik(i)`,
so every entry keeps the content the vector had at allocation, and the reported `nll` and the
returned `jnll` are computed from these contents: `nll` is minus their sum minus
`logsigma + logomega + loglambda`, and `jnll` is that `nll` plus the prior term. -/
theorem C2_mode_outside_returns_unassigned {α : Type} [Field α] (L : Lib α) (E : Env α)
    (D : Data α) (P : Params α) (h1 : D.likelihood ≠ 1) (h2 : D.likelihood ≠ 2)
    (h3 : D.likelihood ≠ 3) (h : InputShapes D P) :
    ∃ r, objective_function L E D P = some r ∧
      r.report.log_lik = (List.range D.cpue.length).map E.log_lik0 ∧
      r.report.nll = -((List.range D.cpue.length).map E.log_lik0).sum
        - (P.logsigma + P.logomega + P.loglambda) ∧
      r.jnll = -((List.range D.cpue.length).map E.log_lik0).sum
        - (P.logsigma + P.logomega + P.loglambda)
        + priors L P (L.exp P.logsigma) (L.exp P.loglambda) (L.exp P.logomega) := by
  obtain ⟨r, mu, z, hr, _, _, _, _, _, _, hll, hnll, hj⟩ := objective_function_spec L E D P h
  have hv := logLikVector_mode_other L E D P mu z h1 h2 h3
  refine ⟨r, hr, by rw [hll, hv], ?_, ?_⟩
  · rw [hnll, hll, hv]
  · rw [hj, hnll, hll, hv]

/-- C2 (witness of the amended statement): mode `4` on the spec's scenario. -/
theorem C2_mode_outside_returns_unassigned_witness :
    ((scenarioData ℝ 4 [2]).likelihood ≠ 1 ∧ (scenarioData ℝ 4 [2]).likelihood ≠ 2 ∧
      (scenarioData ℝ 4 [2]).likelihood ≠ 3 ∧
      InputShapes (scenarioData ℝ 4 [2]) (scenarioParams ℝ 0 0 0)) ∧
    ∃ r, objective_function realLib (plainEnv ℝ 7) (scenarioData ℝ 4 [2])
        (scenarioParams ℝ 0 0 0) = some r ∧
      r.report.log_lik = (List.range (scenarioData ℝ 4 [2]).cpue.length).map
        (plainEnv ℝ 7).log_lik0 ∧
      r.report.nll = -((List.range (scenarioData ℝ 4 [2]).cpue.length).map
          (plainEnv ℝ 7).log_lik0).sum
        - ((scenarioParams ℝ 0 0 0).logsigma + (scenarioParams ℝ 0 0 0).logomega
          + (scenarioParams ℝ 0 0 0).loglambda) ∧
      r.jnll = -((List.range (scenarioData ℝ 4 [2]).cpue.length).map
          (plainEnv ℝ 7).log_lik0).sum
        - ((scenarioParams ℝ 0 0 0).logsigma + (scenarioParams ℝ 0 0 0).logomega
          + (scenarioParams ℝ 0 0 0).loglambda)
        + priors realLib (scenarioParams ℝ 0 0 0) (realLib.exp (scenarioParams ℝ 0 0 0).logsigma)
          (realLib.exp (scenarioParams ℝ 0 0 0).loglambda)
          (realLib.exp (scenarioParams ℝ 0 0 0).logomega) :=
  ⟨⟨by simp [scenarioData], by simp [scenarioData], by simp [scenarioData],
      by simp [InputShapes, PredictorShapes, PenaltyShapes, scenarioData, scenarioParams]⟩,
    C2_mode_outside_returns_unassigned realLib (plainEnv ℝ 7) (scenarioData ℝ 4 [2])
      (scenarioParams ℝ 0 0 0) (by simp [scenarioData]) (by simp [scenarioData])
      (by simp [scenarioData])
      (by simp [InputShapes, PredictorShapes, PenaltyShapes, scenarioData, scenarioParams])⟩

/-- C3 (counterexample). Block dimensions `[1]` sum to `1`, the coefficient vector has length
`2`: the sum differs from the length (it is smaller, the second coefficient belongs to no
block), and the evaluation returns a value instead of aborting. -/
theorem C3_short_blocks_return :
    (scenarioData ℝ 1 [1]).Sdims.sum ≠ ((scenarioParams ℝ 0 0 0).smoothCoefs.length : Int) ∧
    ∃ r, objective_function realLib (plainEnv ℝ 0) (scenarioData ℝ 1 [1])
        (scenarioParams ℝ 0 0 0) = some r := by
  refine ⟨by simp [scenarioData, scenarioParams], ?_⟩
  exact objective_function_isSome realLib (plainEnv ℝ 0) _ _ (scenario_shapes_one 1 0 0 0)

/-- C3 (amended). For every input with non-negative block dimensions whose other shapes are
valid (the penalty matrix is at least as large as the coefficient vector, the data columns and
design matrices fit), the evaluation aborts and returns no objective value exactly when the
entries of `Sdims` sum to more than the length of `smoothCoefs`; a sum that is smaller is not an
error. -/
theorem C3_abort_iff_blocks_overrun {α : Type} [Field α] (L : Lib α) (E : Env α) (D : Data α)
    (P : Params α) (hn : ∀ m ∈ D.Sdims, 0 ≤ m) (hr : P.smoothCoefs.length ≤ D.S.rows)
    (hc : P.smoothCoefs.length ≤ D.S.cols) (hp : PredictorShapes D P)
    (ht : D.tpsReport.cols = P.smoothCoefs.length) :
    objective_function L E D P = none ↔ (P.smoothCoefs.length : Int) < D.Sdims.sum := by
  constructor
  · intro hnone
    by_contra hle
    have hsh : InputShapes D P :=
      ⟨hp, ⟨hn, by omega, by omega, by omega⟩, ht⟩
    obtain ⟨r, hr⟩ := objective_function_isSome L E D P hsh
    rw [hnone] at hr
    exact Option.noConfusion hr
  · intro hgt
    exact objective_function_none_of_penalty L E D P
      (penaltyLoop_none_of_sum_gt D.S P.smoothCoefs P.loglambda (L.exp P.loglambda) D.Sdims hgt)

/-- C3 (witness of the amended statement): block dimensions `[3]` on a coefficient vector of
length `2` abort the evaluation. -/
theorem C3_abort_iff_blocks_overrun_witness :
    ((∀ m ∈ (scenarioData ℝ 1 [3]).Sdims, 0 ≤ m) ∧
      (scenarioParams ℝ 0 0 0).smoothCoefs.length ≤ (scenarioData ℝ 1 [3]).S.rows ∧
      (scenarioParams ℝ 0 0 0).smoothCoefs.length ≤ (scenarioData ℝ 1 [3]).S.cols ∧
      PredictorShapes (scenarioData ℝ 1 [3]) (scenarioParams ℝ 0 0 0) ∧
      (scenarioData ℝ 1 [3]).tpsReport.cols = (scenarioParams ℝ 0 0 0).smoothCoefs.length) ∧
    objective_function realLib (plainEnv ℝ 0) (scenarioData ℝ 1 [3]) (scenarioParams ℝ 0 0 0)
      = none :=
  ⟨⟨by simp [scenarioData], by simp [scenarioData, scenarioParams],
      by simp [scenarioData, scenarioParams],
      by simp [PredictorShapes, scenarioData, scenarioParams],
      by simp [scenarioData, scenarioParams]⟩,
    (C3_abort_iff_blocks_overrun realLib (plainEnv ℝ 0) (scenarioData ℝ 1 [3])
      (scenarioParams ℝ 0 0 0) (by simp [scenarioData]) (by simp [scenarioData, scenarioParams])
      (by simp [scenarioData, scenarioParams])
      (by simp [PredictorShapes, scenarioData, scenarioParams])
      (by simp [scenarioData, scenarioParams])).mpr
      (by simp [scenarioData, scenarioParams])⟩

/-- C4 (counterexample). In the spec's scenario with mode 1 and `logsigma = 1` the value
reported as `nll` is not the closed-form lognormal negative log-likelihood of the three
observations: the Jacobian term has already been subtracted from it. -/
theorem C4_reported_nll_not_closed_form :
    ∃ r, objective_function realLib (plainEnv ℝ 0) (scenarioData ℝ 1 [2])
        (scenarioParams ℝ 0 1 0) = some r ∧
      r.report.nll ≠ lognormalNll realLib [1, 2, 3] [0, 0, 0] (Real.exp 1) := by
  obtain ⟨r, mu, z, hr, hmu, _, _, _, _, _, hll, hnll, _⟩ :=
    objective_function_spec realLib (plainEnv ℝ 0) (scenarioData ℝ 1 [2])
      (scenarioParams ℝ 0 1 0) (scenario_shapes 1 0 1 0)
  rw [scenario_linearPredictor] at hmu
  simp only [Option.some.injEq] at hmu
  subst hmu
  refine ⟨r, hr, ?_⟩
  have h1 := logLikVector_mode1 realLib (plainEnv ℝ 0) (scenarioData ℝ 1 [2])
    (scenarioParams ℝ 0 1 0) [0, 0, 0] z rfl
  rw [hnll, hll, h1]
  have e1 : (scenarioData ℝ 1 [2]).cpue = [1, 2, 3] := rfl
  have e2 : realLib.exp (scenarioParams ℝ 0 1 0).logsigma = Real.exp 1 := rfl
  rw [e1, e2]
  simp only [scenarioParams]
  intro hcontra
  linarith

/-- C4 (amended). In mode 1, on well-shaped inputs, the vector reported as `log_lik` holds the
per-observation lognormal log-densities: it has one entry per observation and entry `i` is
`log N(log y_i ; mu_i, sigma) - log y_i` with `sigma = exp(logsigma)` and `mu_i` the assembled
linear predictor, which is what `preds` reports. The negation of the sum of `log_lik` is the
closed-form lognormal negative log-likelihood, and the value reported under the name `nll`
equals that closed form minus `logsigma + logomega + loglambda`. -/
theorem C4_reported_nll_mode1 {α : Type} [Field α] (L : Lib α) (E : Env α) (D : Data α)
    (P : Params α) (hm : D.likelihood = 1) (h : InputShapes D P) :
    ∃ r, objective_function L E D P = some r ∧
      r.report.log_lik = ((List.range D.cpue.length).map fun i =>
        L.dnorm (L.log (D.cpue.getD i 0)) (muEntry D P i) (L.exp P.logsigma)
          - L.log (D.cpue.getD i 0)) ∧
      r.report.preds.length = D.cpue.length ∧
      (∀ i, i < D.cpue.length → r.report.preds.getD i 0 = muEntry D P i) ∧
      (∀ i, i < D.cpue.length →
        r.report.log_lik.getD i 0 =
          L.dnorm (L.log (D.cpue.getD i 0)) (r.report.preds.getD i 0) (L.exp P.logsigma)
            - L.log (D.cpue.getD i 0)) ∧
      -(r.report.log_lik).sum = lognormalNll L D.cpue r.report.preds (L.exp P.logsigma) ∧
      r.report.nll = lognormalNll L D.cpue r.report.preds (L.exp P.logsigma)
        - (P.logsigma + P.logomega + P.loglambda) := by
  obtain ⟨r, mu, z, hr, _, hlen, hent, _, _, hpreds, hll, hnll, _⟩ :=
    objective_function_spec L E D P h
  have h1 := logLikVector_mode1 L E D P mu z hm
  have hvec : logLikVector L E D P mu z = ((List.range D.cpue.length).map fun i =>
      L.dnorm (L.log (D.cpue.getD i 0)) (muEntry D P i) (L.exp P.logsigma)
        - L.log (D.cpue.getD i 0)) := by
    unfold logLikVector
    refine List.map_congr_left fun i hi => ?_
    rw [← hent i (List.mem_range.mp hi)]
    simp [logLikEntry, hm, dlognorm]
  refine ⟨r, hr, by rw [hll, hvec], by rw [hpreds, hlen], ?_, ?_, by rw [hll, hpreds, h1], ?_⟩
  · intro i hi
    rw [hpreds, hent i hi]
  · intro i hi
    rw [hll, hpreds, getD_logLikVector L E D P mu z i hi]
    simp [logLikEntry, hm, dlognorm]
  · rw [hnll, hll, hpreds, h1]

/-- C4 (witness of the amended statement): the spec's scenario, mode 1. -/
theorem C4_reported_nll_mode1_witness :
    ((scenarioData ℝ 1 [2]).likelihood = 1 ∧
      InputShapes (scenarioData ℝ 1 [2]) (scenarioParams ℝ 0 1 0)) ∧
    ∃ r, objective_function realLib (plainEnv ℝ 0) (scenarioData ℝ 1 [2])
        (scenarioParams ℝ 0 1 0) = some r ∧
      r.report.log_lik = ((List.range (scenarioData ℝ 1 [2]).cpue.length).map fun i =>
        realLib.dnorm (realLib.log ((scenarioData ℝ 1 [2]).cpue.getD i 0))
            (muEntry (scenarioData ℝ 1 [2]) (scenarioParams ℝ 0 1 0) i)
            (realLib.exp (scenarioParams ℝ 0 1 0).logsigma)
          - realLib.log ((scenarioData ℝ 1 [2]).cpue.getD i 0)) ∧
      r.report.preds.length = (scenarioData ℝ 1 [2]).cpue.length ∧
      (∀ i, i < (scenarioData ℝ 1 [2]).cpue.length →
        r.report.preds.getD i 0 = muEntry (scenarioData ℝ 1 [2]) (scenarioParams ℝ 0 1 0) i) ∧
      (∀ i, i < (scenarioData ℝ 1 [2]).cpue.length →
        r.report.log_lik.getD i 0 =
          realLib.dnorm (realLib.log ((scenarioData ℝ 1 [2]).cpue.getD i 0))
              (r.report.preds.getD i 0) (realLib.exp (scenarioParams ℝ 0 1 0).logsigma)
            - realLib.log ((scenarioData ℝ 1 [2]).cpue.getD i 0)) ∧
      -(r.report.log_lik).sum = lognormalNll realLib (scenarioData ℝ 1 [2]).cpue r.report.preds
        (realLib.exp (scenarioParams ℝ 0 1 0).logsigma) ∧
      r.report.nll = lognormalNll realLib (scenarioData ℝ 1 [2]).cpue r.report.preds
          (realLib.exp (scenarioParams ℝ 0 1 0).logsigma)
        - ((scenarioParams ℝ 0 1 0).logsigma + (scenarioParams ℝ 0 1 0).logomega
          + (scenarioParams ℝ 0 1 0).loglambda) :=
  ⟨⟨rfl, by simp [InputShapes, PredictorShapes, PenaltyShapes, scenarioData, scenarioParams]⟩,
    C4_reported_nll_mode1 realLib (plainEnv ℝ 0) (scenarioData ℝ 1 [2]) (scenarioParams ℝ 0 1 0)
      rfl (by simp [InputShapes, PredictorShapes, PenaltyShapes, scenarioData, scenarioParams])⟩

end SnTps

namespace SnTps

theorem logLikVector_mode2_getD {α : Type} [Field α] (L : Lib α) (E : Env α) (D : Data α)
    (P : Params α) (mu z : List α) (hm : D.likelihood = 2) (i : Nat) (hi : i < D.cpue.length) :
    (logLikVector L E D P mu z).getD i 0 =
      L.dgamma (D.cpue.getD i 0) (1 / (L.exp P.logsigma) ^ 2)
        (L.exp (mu.getD i 0) * (L.exp P.logsigma) ^ 2) := by
  rw [getD_logLikVector L E D P mu z i hi]
  simp [logLikEntry, hm]

/-- C5. In mode 2, for every observation `i` and every `logsigma`, `log_lik(i)` is the gamma
log-density at `cpue(i)` with shape `1 / sigma^2` and scale `exp(mu_i) * sigma^2`, where
`sigma = exp(logsigma)` and `mu_i` is the assembled linear predictor; shape times scale, the
mean of that gamma distribution, equals `exp(mu_i)`. -/
theorem C5_gamma_shape_and_mean (E : Env ℝ) (D : Data ℝ) (P : Params ℝ)
    (hm : D.likelihood = 2) (h : InputShapes D P) :
    ∃ r, objective_function realLib E D P = some r ∧
      ∀ i, i < D.cpue.length →
        r.report.log_lik.getD i 0 =
          realLib.dgamma (D.cpue.getD i 0) (1 / (Real.exp P.logsigma) ^ 2)
            (Real.exp (muEntry D P i) * (Real.exp P.logsigma) ^ 2) ∧
        (1 / (Real.exp P.logsigma) ^ 2) * (Real.exp (muEntry D P i) * (Real.exp P.logsigma) ^ 2)
          = Real.exp (muEntry D P i) := by
  obtain ⟨r, mu, z, hr, _, _, hmu, _, _, _, hll, _, _⟩ :=
    objective_function_spec realLib E D P h
  refine ⟨r, hr, fun i hi => ⟨?_, ?_⟩⟩
  · rw [hll, logLikVector_mode2_getD realLib E D P mu z hm i hi, hmu i hi]
    rfl
  · have hpos : Real.exp P.logsigma ≠ 0 := (Real.exp_pos _).ne.symm
    field_simp

/-- C5 (witness): the spec's scenario under mode 2. -/
theorem C5_gamma_shape_and_mean_witness :
    ((scenarioData ℝ 2 [2]).likelihood = 2 ∧
      InputShapes (scenarioData ℝ 2 [2]) (scenarioParams ℝ 0 1 0)) ∧
    ∃ r, objective_function realLib (plainEnv ℝ 0) (scenarioData ℝ 2 [2])
        (scenarioParams ℝ 0 1 0) = some r ∧
      ∀ i, i < (scenarioData ℝ 2 [2]).cpue.length →
        r.report.log_lik.getD i 0 =
          realLib.dgamma ((scenarioData ℝ 2 [2]).cpue.getD i 0)
            (1 / (Real.exp (scenarioParams ℝ 0 1 0).logsigma) ^ 2)
            (Real.exp (muEntry (scenarioData ℝ 2 [2]) (scenarioParams ℝ 0 1 0) i)
              * (Real.exp (scenarioParams ℝ 0 1 0).logsigma) ^ 2) ∧
        (1 / (Real.exp (scenarioParams ℝ 0 1 0).logsigma) ^ 2)
            * (Real.exp (muEntry (scenarioData ℝ 2 [2]) (scenarioParams ℝ 0 1 0) i)
              * (Real.exp (scenarioParams ℝ 0 1 0).logsigma) ^ 2)
          = Real.exp (muEntry (scenarioData ℝ 2 [2]) (scenarioParams ℝ 0 1 0) i) :=
  ⟨⟨rfl, by simp [InputShapes, PredictorShapes, PenaltyShapes, scenarioData, scenarioParams]⟩,
    C5_gamma_shape_and_mean (plainEnv ℝ 0) (scenarioData ℝ 2 [2]) (scenarioParams ℝ 0 1 0) rfl
      (by simp [InputShapes, PredictorShapes, PenaltyShapes, scenarioData, scenarioParams])⟩

theorem blockQuad_split {α : Type} [Field α] (S : Mat α) (coefs : List α) (m1 m2 : Nat)
    (hz : ∀ a b, a < m1 → m1 ≤ b → b < m1 + m2 → S.coeff a b = 0 ∧ S.coeff b a = 0) :
    blockQuad S coefs 0 (m1 + m2) = blockQuad S coefs 0 m1 + blockQuad S coefs m1 m2 := by
  unfold blockQuad
  rw [Finset.sum_range_add]
  congr 1
  · refine Finset.sum_congr rfl fun a ha => ?_
    rw [Finset.sum_range_add]
    have hzero : (Finset.sum (Finset.range m2) fun b =>
        S.coeff (0 + a) (0 + (m1 + b)) * coefs.getD (0 + (m1 + b)) 0) = 0 := by
      refine Finset.sum_eq_zero fun b hb => ?_
      have hb2 := Finset.mem_range.mp hb
      have := (hz a (m1 + b) (Finset.mem_range.mp ha) (by omega) (by omega)).1
      simp [this]
    rw [hzero, add_zero]
  · refine Finset.sum_congr rfl fun a ha => ?_
    have ha2 := Finset.mem_range.mp ha
    rw [Finset.sum_range_add]
    have hzero : (Finset.sum (Finset.range m1) fun b =>
        S.coeff (0 + (m1 + a)) (0 + b) * coefs.getD (0 + b) 0) = 0 := by
      refine Finset.sum_eq_zero fun b hb => ?_
      have := (hz b (m1 + a) (Finset.mem_range.mp hb) (by omega) (by omega)).2
      simp [this]
    rw [hzero, zero_add]
    simp

/-- C6. Block-split additivity of the penalty loop: for `m = m1 + m2`, a coefficient vector of
length `m`, any `loglambda` and `lambda`, and an `m x m` penalty matrix whose entries coupling
the first `m1` indices with the last `m2` indices are all zero, the loop run with
`Sdims = [m1, m2]` ends in exactly the state (accumulator and counter) it ends in when run with
`Sdims = [m]`, and both runs complete. -/
theorem C6_block_split_additive {α : Type} [Field α] (S : Mat α) (coefs : List α)
    (loglambda lambda : α) (m1 m2 : Nat) (hlen : coefs.length = m1 + m2)
    (hrows : S.rows = m1 + m2) (hcols : S.cols = m1 + m2)
    (hz : ∀ a b, a < m1 → m1 ≤ b → b < m1 + m2 → S.coeff a b = 0 ∧ S.coeff b a = 0) :
    penaltyLoop S coefs loglambda lambda [(m1 : Int), (m2 : Int)]
      = penaltyLoop S coefs loglambda lambda [((m1 + m2 : Nat) : Int)] ∧
    ∃ st, penaltyLoop S coefs loglambda lambda [((m1 + m2 : Nat) : Int)] = some st := by
  have h2 := penaltyLoop_ofNat S coefs loglambda lambda [m1, m2]
    (by simp; omega) (by simp; omega) (by simp; omega)
  have h1 := penaltyLoop_ofNat S coefs loglambda lambda [m1 + m2]
    (by simp; omega) (by simp; omega) (by simp; omega)
  simp only [List.map_cons, List.map_nil] at h1 h2
  refine ⟨?_, _, h1⟩
  rw [h1, h2]
  have hq := blockQuad_split S coefs m1 m2 hz
  simp only [penaltySum, blockTerm, blockOffset, List.length_cons, List.length_nil,
    Finset.sum_range_succ, Finset.sum_range_zero, List.sum_cons, List.sum_nil]
  simp only [Option.some.injEq, Prod.mk.injEq]
  constructor
  · simp [hq]
    ring
  · simp

/-- C6 (witness): the `2 x 2` identity split into two blocks of dimension 1. -/
theorem C6_block_split_additive_witness :
    (([3, 4] : List ℝ).length = 1 + 1 ∧ (scenarioData ℝ 1 [2]).S.rows = 1 + 1 ∧
      (scenarioData ℝ 1 [2]).S.cols = 1 + 1 ∧
      ∀ a b, a < 1 → 1 ≤ b → b < 1 + 1 →
        (scenarioData ℝ 1 [2]).S.coeff a b = 0 ∧ (scenarioData ℝ 1 [2]).S.coeff b a = 0) ∧
    (penaltyLoop (scenarioData ℝ 1 [2]).S [3, 4] 5 6 [((1 : Nat) : Int), ((1 : Nat) : Int)]
      = penaltyLoop (scenarioData ℝ 1 [2]).S [3, 4] 5 6 [((1 + 1 : Nat) : Int)] ∧
    ∃ st, penaltyLoop (scenarioData ℝ 1 [2]).S [3, 4] (5 : ℝ) 6 [((1 + 1 : Nat) : Int)]
      = some st) :=
  ⟨⟨rfl, rfl, rfl, fun a b ha hb1 hb2 => by
      have ha0 : a = 0 := by omega
      have hb : b = 1 := by omega
      subst ha0 hb
      simp [scenarioData]⟩,
    C6_block_split_additive (scenarioData ℝ 1 [2]).S [3, 4] 5 6 1 1 rfl rfl rfl
      (fun a b ha hb1 hb2 => by
        have ha0 : a = 0 := by omega
        have hb : b = 1 := by omega
        subst ha0 hb
        simp [scenarioData])⟩

end SnTps

namespace SnTps

/-- Lines 161 and 164 on their own: whatever the accumulator `nll` and the prior term `nlp`
hold, the returned value is their sum minus the three log-scale parameters, so shifting the
three parameters with `nll` and `nlp` held fixed shifts it by minus the sum of the shifts. -/
theorem jacobian_shift {α : Type} [Field α] (nll nlp ls lo ll d1 d2 d3 : α) :
    (nll - ((ls + d1) + (lo + d3) + (ll + d2))) + nlp
      = ((nll - (ls + lo + ll)) + nlp) - (d1 + d2 + d3) := by
  ring

/-- C7 (defect of the code, evaluated at the failing input). The claim takes the returned
objective to be `G - (logsigma + loglambda + logomega)` with `G` the sum of the likelihood,
penalty and prior terms. In the spec's scenario with `loglambda = 2`, `logsigma = 1`,
`logomega = 3` the penalty loop accumulates `pen = -2`, yet the returned `jnll` is the
likelihood term plus the prior term minus the three parameters, which is not
`(likelihood + pen + prior) - (logsigma + loglambda + logomega)`: the penalty accumulated by the
loop has been overwritten on line 134 (the defect of C1). -/
theorem C7_objective_is_not_G_minus_jacobian :
    ∃ r pen, objective_function realLib (plainEnv ℝ 0) (scenarioData ℝ 3 [2])
        (scenarioParams ℝ 2 1 3) = some r ∧
      penaltyLoop (scenarioData ℝ 3 [2]).S (scenarioParams ℝ 2 1 3).smoothCoefs 2
        (realLib.exp 2) (scenarioData ℝ 3 [2]).Sdims = some (pen, 2) ∧
      pen = -2 ∧
      r.jnll = (-(r.report.log_lik).sum
          + priors realLib (scenarioParams ℝ 2 1 3) (realLib.exp 1) (realLib.exp 2)
            (realLib.exp 3)) - (1 + 2 + 3) ∧
      r.jnll ≠ (-(r.report.log_lik).sum + pen
          + priors realLib (scenarioParams ℝ 2 1 3) (realLib.exp 1) (realLib.exp 2)
            (realLib.exp 3)) - (1 + 2 + 3) := by
  obtain ⟨r, mu, z, hr, _, _, _, _, _, _, _, hnll, hj⟩ :=
    objective_function_spec realLib (plainEnv ℝ 0) (scenarioData ℝ 3 [2])
      (scenarioParams ℝ 2 1 3) (scenario_shapes 3 2 1 3)
  have hpen := scenario_penaltyLoop_two (α := ℝ) 3 2 1 3 (realLib.exp 2)
  have hval : r.jnll = (-(r.report.log_lik).sum
      + priors realLib (scenarioParams ℝ 2 1 3) (realLib.exp 1) (realLib.exp 2)
        (realLib.exp 3)) - (1 + 2 + 3) := by
    rw [hj, hnll]
    simp only [scenarioParams]
    ring
  refine ⟨r, -2, hr, ?_, rfl, hval, ?_⟩
  · rw [hpen]
    norm_num
  · rw [hval]
    intro hcontra
    linarith

/-- C8. For block dimensions that are non-negative (a list of naturals) and sum to the length of
`smoothCoefs` and to the dimension of `S`, the penalty loop completes, and its accumulator is
the sum over the blocks `i` of `-(0.5 * m_i * log(lambda) - 0.5 * lambda * Q_i)` with
`lambda = exp(loglambda)` and `Q_i` the quadratic form of the slice of `smoothCoefs` of length
`m_i` at offset `m_0 + ... + m_(i-1)` with the diagonal sub-block of `S` at the same offset; the
counter ends at the sum of the dimensions. A block of dimension 1 at offset `off` with matrix
entry `s` and coefficient `c` contributes `-(0.5 * log(lambda) - 0.5 * lambda * s * c^2)` by the
same formula. -/
theorem C8_penalty_loop_value (S : Mat ℝ) (coefs : List ℝ) (loglambda : ℝ) (dims : List Nat)
    (hsum : dims.sum = coefs.length) (hrows : S.rows = coefs.length)
    (hcols : S.cols = coefs.length) :
    penaltyLoop S coefs loglambda (realLib.exp loglambda) (dims.map fun (m : Nat) => (m : Int))
      = some
        (Finset.sum (Finset.range dims.length) fun i =>
          -(0.5 * (dims.getD i 0 : ℝ) * Real.log (Real.exp loglambda)
            - 0.5 * Real.exp loglambda * blockQuad S coefs (blockOffset dims i) (dims.getD i 0)),
         (dims.sum : Int)) ∧
    ∀ off, blockTerm S coefs (Real.log (Real.exp loglambda)) (Real.exp loglambda) off 1
      = -(0.5 * Real.log (Real.exp loglambda)
          - 0.5 * Real.exp loglambda * S.coeff off off * (coefs.getD off 0) ^ 2) := by
  constructor
  · rw [penaltyLoop_ofNat S coefs loglambda (realLib.exp loglambda) dims (by omega) (by omega)
      (by omega)]
    simp only [penaltySum, blockTerm, Real.log_exp, zero_add]
    rfl
  · intro off
    simp only [blockTerm, blockQuad, Finset.sum_range_one, add_zero, Nat.cast_one]
    ring

/-- C8 (witness): one block of dimension 2 on the identity matrix. -/
theorem C8_penalty_loop_value_witness :
    (([2] : List Nat).sum = ([3, 4] : List ℝ).length ∧
      (scenarioData ℝ 1 [2]).S.rows = ([3, 4] : List ℝ).length ∧
      (scenarioData ℝ 1 [2]).S.cols = ([3, 4] : List ℝ).length) ∧
    (penaltyLoop (scenarioData ℝ 1 [2]).S [3, 4] 0 (realLib.exp 0)
        (([2] : List Nat).map fun (m : Nat) => (m : Int))
      = some
        (Finset.sum (Finset.range ([2] : List Nat).length) fun i =>
          -(0.5 * (([2] : List Nat).getD i 0 : ℝ) * Real.log (Real.exp 0)
            - 0.5 * Real.exp 0 * blockQuad (scenarioData ℝ 1 [2]).S [3, 4]
                (blockOffset [2] i) (([2] : List Nat).getD i 0)),
         (([2] : List Nat).sum : Int)) ∧
    ∀ off, blockTerm (scenarioData ℝ 1 [2]).S [3, 4] (Real.log (Real.exp 0)) (Real.exp 0) off 1
      = -(0.5 * Real.log (Real.exp 0)
          - 0.5 * Real.exp 0 * (scenarioData ℝ 1 [2]).S.coeff off off
            * (([3, 4] : List ℝ).getD off 0) ^ 2)) :=
  ⟨⟨rfl, rfl, rfl⟩, C8_penalty_loop_value (scenarioData ℝ 1 [2]).S [3, 4] 0 [2] rfl rfl rfl⟩

/-- C9. On well-shaped inputs (in particular every factor level inside the bounds of its
coefficient vector) the evaluation returns, the vector of means `mu` has one entry per
observation, entry `i` is
`beta0 + beta_year[year_i] + beta_trim[trim_i] + beta_destine[destine_i] + beta_depth * depth_i
 + sum_j TPS[i][j] * smoothCoefs[j]`, and the reported `preds` is `mu`. -/
theorem C9_linear_predictor {α : Type} [Field α] (L : Lib α) (E : Env α) (D : Data α)
    (P : Params α) (h : InputShapes D P) :
    ∃ r mu, objective_function L E D P = some r ∧ linearPredictor D P = some mu ∧
      mu.length = D.cpue.length ∧
      (∀ i, i < D.cpue.length →
        mu.getD i 0 =
          P.beta0 + P.beta_year.getD (D.year.getD i 0).toNat 0
            + P.beta_trim.getD (D.trim.getD i 0).toNat 0
            + P.beta_destine.getD (D.destine.getD i 0).toNat 0
            + P.beta_depth * D.depth.getD i 0
            + Finset.sum (Finset.range P.smoothCoefs.length) fun j =>
                D.TPS.coeff i j * P.smoothCoefs.getD j 0) ∧
      r.report.preds = mu := by
  obtain ⟨r, mu, z, hr, hmu, hlen, hent, _, _, hpreds, _, _, _⟩ :=
    objective_function_spec L E D P h
  exact ⟨r, mu, hr, hmu, hlen, hent, hpreds⟩

/-- C9 (witness): the spec's scenario. -/
theorem C9_linear_predictor_witness :
    InputShapes (scenarioData ℝ 1 [2]) (scenarioParams ℝ 0 0 0) ∧
    ∃ r mu, objective_function realLib (plainEnv ℝ 0) (scenarioData ℝ 1 [2])
        (scenarioParams ℝ 0 0 0) = some r ∧
      linearPredictor (scenarioData ℝ 1 [2]) (scenarioParams ℝ 0 0 0) = some mu ∧
      mu.length = (scenarioData ℝ 1 [2]).cpue.length ∧
      (∀ i, i < (scenarioData ℝ 1 [2]).cpue.length →
        mu.getD i 0 =
          (scenarioParams ℝ 0 0 0).beta0
            + (scenarioParams ℝ 0 0 0).beta_year.getD
                ((scenarioData ℝ 1 [2]).year.getD i 0).toNat 0
            + (scenarioParams ℝ 0 0 0).beta_trim.getD
                ((scenarioData ℝ 1 [2]).trim.getD i 0).toNat 0
            + (scenarioParams ℝ 0 0 0).beta_destine.getD
                ((scenarioData ℝ 1 [2]).destine.getD i 0).toNat 0
            + (scenarioParams ℝ 0 0 0).beta_depth * (scenarioData ℝ 1 [2]).depth.getD i 0
            + Finset.sum (Finset.range (scenarioParams ℝ 0 0 0).smoothCoefs.length) fun j =>
                (scenarioData ℝ 1 [2]).TPS.coeff i j
                  * (scenarioParams ℝ 0 0 0).smoothCoefs.getD j 0) ∧
      r.report.preds = mu :=
  ⟨by simp [InputShapes, PredictorShapes, PenaltyShapes, scenarioData, scenarioParams],
    C9_linear_predictor realLib (plainEnv ℝ 0) (scenarioData ℝ 1 [2]) (scenarioParams ℝ 0 0 0)
      (by simp [InputShapes, PredictorShapes, PenaltyShapes, scenarioData, scenarioParams])⟩

end SnTps

namespace SnTps

/-- The library's `dnorm(x, mean, sd, true)` is the logarithm of the normal density with mean
`mean` and variance `sd^2`, for every `sd > 0`. -/
theorem realLib_dnorm_eq_log_gaussianPDF (x mean sd : ℝ) (hsd : 0 < sd) :
    realLib.dnorm x mean sd
      = Real.log (ProbabilityTheory.gaussianPDFReal mean ⟨sd ^ 2, sq_nonneg sd⟩ x) := by
  have hpi : (0 : ℝ) < 2 * Real.pi := by positivity
  have hsqrt : Real.sqrt (2 * Real.pi * sd ^ 2) = Real.sqrt (2 * Real.pi) * sd := by
    rw [Real.sqrt_mul hpi.le, Real.sqrt_sq hsd.le]
  have h1 : Real.sqrt (2 * Real.pi) ≠ 0 := (Real.sqrt_pos.mpr hpi).ne.symm
  simp only [ProbabilityTheory.gaussianPDFReal, NNReal.coe_mk, realLib]
  rw [hsqrt, Real.log_mul (inv_ne_zero (mul_ne_zero h1 hsd.ne.symm)) (Real.exp_pos _).ne.symm,
    Real.log_inv, Real.log_mul h1 hsd.ne.symm, Real.log_exp]
  field_simp
  ring

/-- C10. The prior term `nlp` that enters the returned objective is a function of the
parameters alone (the returned `jnll` exceeds the reported `nll` by it, whatever the data), and
it equals the negation of
`logN(beta0;0,5) + sum logN(beta_destine_k;0,5) + sum logN(beta_year_k;0,1)
 + sum logN(beta_trim_k;0,1) + sum logN(smoothCoefs_k;0,1) + logN(beta_depth;0,2)
 + logN(exp(loglambda);0,1) + logN(exp(logomega);0,1) + logCauchy(exp(logsigma);0,2)`,
where `logN` is the library's normal log-density and
`logCauchy(x;0,2) = -log(pi) - log(2) - log(1 + (x/2)^2)` is the logarithm of the Cauchy
density `1 / (pi * 2 * (1 + (x/2)^2))`. -/
theorem C10_prior_term (E : Env ℝ) (D : Data ℝ) (P : Params ℝ) (h : InputShapes D P) :
    ∃ r, objective_function realLib E D P = some r ∧
      r.jnll - r.report.nll
        = priors realLib P (Real.exp P.logsigma) (Real.exp P.loglambda) (Real.exp P.logomega) ∧
      priors realLib P (Real.exp P.logsigma) (Real.exp P.loglambda) (Real.exp P.logomega)
        = -(realLib.dnorm P.beta0 0 5
            + (P.beta_destine.map fun b => realLib.dnorm b 0 5).sum
            + (P.beta_year.map fun b => realLib.dnorm b 0 1).sum
            + (P.beta_trim.map fun b => realLib.dnorm b 0 1).sum
            + (P.smoothCoefs.map fun b => realLib.dnorm b 0 1).sum
            + realLib.dnorm P.beta_depth 0 2
            + realLib.dnorm (Real.exp P.loglambda) 0 1
            + realLib.dnorm (Real.exp P.logomega) 0 1
            + (-Real.log Real.pi - Real.log 2
                - Real.log (1 + (Real.exp P.logsigma / 2) ^ 2))) ∧
      ∀ x : ℝ, dcauchy realLib x 0 2 1
          = -Real.log Real.pi - Real.log 2 - Real.log (1 + (x / 2) ^ 2) ∧
        -Real.log Real.pi - Real.log 2 - Real.log (1 + (x / 2) ^ 2)
          = Real.log (1 / (Real.pi * 2 * (1 + (x / 2) ^ 2))) := by
  obtain ⟨r, mu, z, hr, _, _, _, _, _, _, _, _, hj⟩ := objective_function_spec realLib E D P h
  refine ⟨r, hr, ?_, ?_, ?_⟩
  · rw [hj]
    simp only [realLib]
    ring
  · simp only [priors, dcauchy, sub_zero]
    simp only [realLib, ne_eq, one_ne_zero, not_false_eq_true, if_true]
    ring
  · intro x
    have h3 : (1 + (x / 2) ^ 2) ≠ 0 := by positivity
    refine ⟨?_, ?_⟩
    · simp only [dcauchy, sub_zero]
      simp only [realLib, ne_eq, one_ne_zero, not_false_eq_true, if_true]
      ring
    · rw [one_div, Real.log_inv, Real.log_mul (mul_ne_zero Real.pi_ne_zero two_ne_zero) h3,
        Real.log_mul Real.pi_ne_zero two_ne_zero]
      ring

/-- C10 (witness): the spec's scenario. -/
theorem C10_prior_term_witness :
    InputShapes (scenarioData ℝ 1 [2]) (scenarioParams ℝ 0 1 0) ∧
    ∃ r, objective_function realLib (plainEnv ℝ 0) (scenarioData ℝ 1 [2])
        (scenarioParams ℝ 0 1 0) = some r ∧
      r.jnll - r.report.nll
        = priors realLib (scenarioParams ℝ 0 1 0) (Real.exp (scenarioParams ℝ 0 1 0).logsigma)
            (Real.exp (scenarioParams ℝ 0 1 0).loglambda)
            (Real.exp (scenarioParams ℝ 0 1 0).logomega) ∧
      priors realLib (scenarioParams ℝ 0 1 0) (Real.exp (scenarioParams ℝ 0 1 0).logsigma)
          (Real.exp (scenarioParams ℝ 0 1 0).loglambda)
          (Real.exp (scenarioParams ℝ 0 1 0).logomega)
        = -(realLib.dnorm (scenarioParams ℝ 0 1 0).beta0 0 5
            + ((scenarioParams ℝ 0 1 0).beta_destine.map fun b => realLib.dnorm b 0 5).sum
            + ((scenarioParams ℝ 0 1 0).beta_year.map fun b => realLib.dnorm b 0 1).sum
            + ((scenarioParams ℝ 0 1 0).beta_trim.map fun b => realLib.dnorm b 0 1).sum
            + ((scenarioParams ℝ 0 1 0).smoothCoefs.map fun b => realLib.dnorm b 0 1).sum
            + realLib.dnorm (scenarioParams ℝ 0 1 0).beta_depth 0 2
            + realLib.dnorm (Real.exp (scenarioParams ℝ 0 1 0).loglambda) 0 1
            + realLib.dnorm (Real.exp (scenarioParams ℝ 0 1 0).logomega) 0 1
            + (-Real.log Real.pi - Real.log 2
                - Real.log (1 + (Real.exp (scenarioParams ℝ 0 1 0).logsigma / 2) ^ 2))) ∧
      ∀ x : ℝ, dcauchy realLib x 0 2 1
          = -Real.log Real.pi - Real.log 2 - Real.log (1 + (x / 2) ^ 2) ∧
        -Real.log Real.pi - Real.log 2 - Real.log (1 + (x / 2) ^ 2)
          = Real.log (1 / (Real.pi * 2 * (1 + (x / 2) ^ 2))) :=
  ⟨by simp [InputShapes, PredictorShapes, PenaltyShapes, scenarioData, scenarioParams],
    C10_prior_term (plainEnv ℝ 0) (scenarioData ℝ 1 [2]) (scenarioParams ℝ 0 1 0)
      (by simp [InputShapes, PredictorShapes, PenaltyShapes, scenarioData, scenarioParams])⟩

end SnTps

/-! ## Claims on the skew-normal mode, the simulation branch and the hyperparameters -/

namespace SnTps

theorem pnorm_pos (x : ℝ) : 0 < pnorm x := by
  unfold pnorm
  rw [ProbabilityTheory.cdf_eq_toReal]
  apply ENNReal.toReal_pos
  · intro h0
    have hac := ProbabilityTheory.gaussianReal_absolutelyContinuous' 0
      (one_ne_zero : (1 : NNReal) ≠ 0)
    have := hac h0
    simp at this
  · exact MeasureTheory.measure_ne_top _ _

theorem std_normal_pdf_eq (x : ℝ) :
    Real.exp (-Real.log (Real.sqrt (2 * Real.pi)) - Real.log 1
          - 0.5 * ((x - 0) / 1) * ((x - 0) / 1))
      = ProbabilityTheory.gaussianPDFReal 0 1 x := by
  have hpi : (0 : ℝ) < Real.sqrt (2 * Real.pi) := Real.sqrt_pos.mpr (by positivity)
  simp only [ProbabilityTheory.gaussianPDFReal, NNReal.coe_one, mul_one, sub_zero, div_one,
    Real.log_one]
  rw [Real.exp_sub, Real.exp_neg, Real.exp_log hpi, div_eq_mul_inv, ← Real.exp_neg]
  congr 2
  ring

/-- The skew-normal log-density of the library plus the change-of-variables term is the
logarithm of the location-scale skew-normal density `(2 / sigma) * phi(z) * Phi(alpha * z)`. -/
theorem dsn_sub_log_eq (z alpha sigma : ℝ) (hs : 0 < sigma) :
    realLib.dsn z alpha - Real.log sigma
      = Real.log ((2 / sigma) * ProbabilityTheory.gaussianPDFReal 0 1 z * pnorm (alpha * z)) := by
  have hphi : 0 < ProbabilityTheory.gaussianPDFReal 0 1 z :=
    ProbabilityTheory.gaussianPDFReal_pos 0 1 z one_ne_zero
  have hPhi := pnorm_pos (alpha * z)
  have h2 : (2 : ℝ) / sigma ≠ 0 := div_ne_zero two_ne_zero hs.ne.symm
  rw [Real.log_mul (mul_ne_zero h2 hphi.ne.symm) hPhi.ne.symm, Real.log_mul h2 hphi.ne.symm,
    Real.log_div two_ne_zero hs.ne.symm]
  simp only [realLib]
  rw [std_normal_pdf_eq]
  ring

theorem logLikVector_mode3_getD {α : Type} [Field α] (L : Lib α) (E : Env α) (D : Data α)
    (P : Params α) (mu z : List α) (hm : D.likelihood = 3) (i : Nat) (hi : i < D.cpue.length) :
    (logLikVector L E D P mu z).getD i 0 =
      L.dsn (z.getD i 0 / L.exp P.logsigma) (L.exp P.logomega) - L.log (L.exp P.logsigma) := by
  rw [getD_logLikVector L E D P mu z i hi]
  simp [logLikEntry, hm]

/-- C11. In mode 3, for every observation `i`,
`log_lik(i) = dsn((cpue_i - mu_i) / sigma, omega) - log(sigma)` with `sigma = exp(logsigma)` and
`omega = exp(logomega)`; with `dsn` the skew-normal log-density this is the logarithm of the
location-scale skew-normal density `(2 / sigma) * phi(z) * Phi(omega * z)` at
`z = (cpue_i - mu_i) / sigma`, where `phi` and `Phi` are the standard normal density and
distribution function. -/
theorem C11_skew_normal_log_lik (E : Env ℝ) (D : Data ℝ) (P : Params ℝ)
    (hm : D.likelihood = 3) (h : InputShapes D P) :
    ∃ r, objective_function realLib E D P = some r ∧
      ∀ i, i < D.cpue.length →
        r.report.log_lik.getD i 0 =
          realLib.dsn ((D.cpue.getD i 0 - muEntry D P i) / Real.exp P.logsigma)
            (Real.exp P.logomega) - Real.log (Real.exp P.logsigma) ∧
        r.report.log_lik.getD i 0 =
          Real.log ((2 / Real.exp P.logsigma)
            * ProbabilityTheory.gaussianPDFReal 0 1
                ((D.cpue.getD i 0 - muEntry D P i) / Real.exp P.logsigma)
            * pnorm (Real.exp P.logomega
                * ((D.cpue.getD i 0 - muEntry D P i) / Real.exp P.logsigma))) := by
  obtain ⟨r, mu, z, hr, _, _, hmu, _, hz, _, hll, _, _⟩ :=
    objective_function_spec realLib E D P h
  have key : ∀ i, i < D.cpue.length →
      r.report.log_lik.getD i 0 =
        realLib.dsn ((D.cpue.getD i 0 - muEntry D P i) / Real.exp P.logsigma)
          (Real.exp P.logomega) - Real.log (Real.exp P.logsigma) := by
    intro i hi
    rw [hll, logLikVector_mode3_getD realLib E D P mu z hm i hi, hz i hi, hmu i hi]
    rfl
  refine ⟨r, hr, fun i hi => ⟨key i hi, ?_⟩⟩
  rw [key i hi, dsn_sub_log_eq _ _ _ (Real.exp_pos _)]

/-- C11 (witness): the spec's scenario under mode 3. -/
theorem C11_skew_normal_log_lik_witness :
    ((scenarioData ℝ 3 [2]).likelihood = 3 ∧
      InputShapes (scenarioData ℝ 3 [2]) (scenarioParams ℝ 0 1 0)) ∧
    ∃ r, objective_function realLib (plainEnv ℝ 0) (scenarioData ℝ 3 [2])
        (scenarioParams ℝ 0 1 0) = some r ∧
      ∀ i, i < (scenarioData ℝ 3 [2]).cpue.length →
        r.report.log_lik.getD i 0 =
          realLib.dsn (((scenarioData ℝ 3 [2]).cpue.getD i 0
              - muEntry (scenarioData ℝ 3 [2]) (scenarioParams ℝ 0 1 0) i)
              / Real.exp (scenarioParams ℝ 0 1 0).logsigma)
            (Real.exp (scenarioParams ℝ 0 1 0).logomega)
            - Real.log (Real.exp (scenarioParams ℝ 0 1 0).logsigma) ∧
        r.report.log_lik.getD i 0 =
          Real.log ((2 / Real.exp (scenarioParams ℝ 0 1 0).logsigma)
            * ProbabilityTheory.gaussianPDFReal 0 1
                (((scenarioData ℝ 3 [2]).cpue.getD i 0
                  - muEntry (scenarioData ℝ 3 [2]) (scenarioParams ℝ 0 1 0) i)
                  / Real.exp (scenarioParams ℝ 0 1 0).logsigma)
            * pnorm (Real.exp (scenarioParams ℝ 0 1 0).logomega
                * (((scenarioData ℝ 3 [2]).cpue.getD i 0
                  - muEntry (scenarioData ℝ 3 [2]) (scenarioParams ℝ 0 1 0) i)
                  / Real.exp (scenarioParams ℝ 0 1 0).logsigma))) :=
  ⟨⟨rfl, by simp [InputShapes, PredictorShapes, PenaltyShapes, scenarioData, scenarioParams]⟩,
    C11_skew_normal_log_lik (plainEnv ℝ 0) (scenarioData ℝ 3 [2]) (scenarioParams ℝ 0 1 0) rfl
      (by simp [InputShapes, PredictorShapes, PenaltyShapes, scenarioData, scenarioParams])⟩

end SnTps

namespace SnTps

/-- The evaluation reads the environment only through the initial contents of `log_lik` and,
for the reported `cpue_sim` alone, through the simulation switch and the random draws. -/
theorem objective_function_env {α : Type} [Field α] (L : Lib α) (E E2 : Env α) (D : Data α)
    (P : Params α) (h0 : E2.log_lik0 = E.log_lik0) :
    objective_function L E2 D P =
      (objective_function L E D P).map fun r =>
        { r with
          report :=
            { r.report with
              cpue_sim := simulate E2 r.report.preds (L.exp P.logsigma) D.cpue.length } } := by
  cases hpen : penaltyLoop D.S P.smoothCoefs P.loglambda (L.exp P.loglambda) D.Sdims with
  | none => simp [objective_function, hpen]
  | some st =>
    cases hmu : linearPredictor D P with
    | none => simp [objective_function, hpen, hmu]
    | some mu =>
      cases hz : vsub D.cpue mu with
      | none => simp [objective_function, hpen, hmu, hz]
      | some z =>
        cases hspl : matVec D.tpsReport P.smoothCoefs with
        | none => simp [objective_function, hpen, hmu, hz, hspl]
        | some spl =>
          rw [objective_function_of_parts L E D P st mu z spl hpen hmu hz hspl,
            objective_function_of_parts L E2 D P st mu z spl hpen hmu hz hspl]
          simp [logLikVector, h0]

/-- C12. For every input, the returned objective `jnll` and the reported `nll` are the same
whether the simulation branch is executed or not, and whatever the random draws are: two
evaluations that differ only in the simulation switch and the draws either both abort or both
return, with the same `jnll` and the same reported `nll`, and indeed with the same bundle except
for `cpue_sim`, which is written and reported but never read. -/
theorem C12_simulation_frame {α : Type} [Field α] (L : Lib α) (E : Env α) (D : Data α)
    (P : Params α) (b : Bool) (g : Nat → α → α → α) :
    (objective_function L { E with do_simulate := b, rgamma := g } D P).map
        (fun r => (r.jnll, r.report.nll))
      = (objective_function L E D P).map (fun r => (r.jnll, r.report.nll)) ∧
    objective_function L { E with do_simulate := b, rgamma := g } D P =
      (objective_function L E D P).map fun r =>
        { r with
          report :=
            { r.report with
              cpue_sim := simulate { E with do_simulate := b, rgamma := g } r.report.preds
                (L.exp P.logsigma) D.cpue.length } } := by
  have h := objective_function_env L E { E with do_simulate := b, rgamma := g } D P rfl
  refine ⟨?_, h⟩
  rw [h, Option.map_map]
  rfl

/-- C14. The transformed values `sigma`, `lambda`, `omega` used by the evaluation (they enter
the prior term of the returned objective) are the exponentials of `logsigma`, `loglambda`,
`logomega`; they are strictly positive, so the penalty strength `lambda` is never `0`; and the
logarithm of each gives back the log-scale parameter. -/
theorem C14_parameter_transform (E : Env ℝ) (D : Data ℝ) (P : Params ℝ) (h : InputShapes D P) :
    (∃ r, objective_function realLib E D P = some r ∧
      r.jnll = r.report.nll + priors realLib P (transformedParameters realLib P).1
        (transformedParameters realLib P).2.1 (transformedParameters realLib P).2.2) ∧
    transformedParameters realLib P
      = (Real.exp P.logsigma, Real.exp P.loglambda, Real.exp P.logomega) ∧
    (0 < (transformedParameters realLib P).1 ∧ 0 < (transformedParameters realLib P).2.1 ∧
      0 < (transformedParameters realLib P).2.2) ∧
    (transformedParameters realLib P).2.1 ≠ 0 ∧
    (Real.log (transformedParameters realLib P).1 = P.logsigma ∧
      Real.log (transformedParameters realLib P).2.1 = P.loglambda ∧
      Real.log (transformedParameters realLib P).2.2 = P.logomega) := by
  obtain ⟨r, mu, z, hr, _, _, _, _, _, _, _, _, hj⟩ := objective_function_spec realLib E D P h
  have ht : transformedParameters realLib P
      = (Real.exp P.logsigma, Real.exp P.loglambda, Real.exp P.logomega) := rfl
  refine ⟨⟨r, hr, hj⟩, ht, ?_, ?_, ?_⟩
  · rw [ht]
    exact ⟨Real.exp_pos _, Real.exp_pos _, Real.exp_pos _⟩
  · rw [ht]
    exact (Real.exp_pos _).ne.symm
  · rw [ht]
    exact ⟨Real.log_exp _, Real.log_exp _, Real.log_exp _⟩

/-- C14 (witness): the spec's scenario with `loglambda = 2`, `logsigma = 1`, `logomega = 3`. -/
theorem C14_parameter_transform_witness :
    InputShapes (scenarioData ℝ 1 [2]) (scenarioParams ℝ 2 1 3) ∧
    ((∃ r, objective_function realLib (plainEnv ℝ 0) (scenarioData ℝ 1 [2])
          (scenarioParams ℝ 2 1 3) = some r ∧
      r.jnll = r.report.nll + priors realLib (scenarioParams ℝ 2 1 3)
        (transformedParameters realLib (scenarioParams ℝ 2 1 3)).1
        (transformedParameters realLib (scenarioParams ℝ 2 1 3)).2.1
        (transformedParameters realLib (scenarioParams ℝ 2 1 3)).2.2) ∧
    transformedParameters realLib (scenarioParams ℝ 2 1 3)
      = (Real.exp (scenarioParams ℝ 2 1 3).logsigma, Real.exp (scenarioParams ℝ 2 1 3).loglambda,
          Real.exp (scenarioParams ℝ 2 1 3).logomega) ∧
    (0 < (transformedParameters realLib (scenarioParams ℝ 2 1 3)).1 ∧
      0 < (transformedParameters realLib (scenarioParams ℝ 2 1 3)).2.1 ∧
      0 < (transformedParameters realLib (scenarioParams ℝ 2 1 3)).2.2) ∧
    (transformedParameters realLib (scenarioParams ℝ 2 1 3)).2.1 ≠ 0 ∧
    (Real.log (transformedParameters realLib (scenarioParams ℝ 2 1 3)).1
        = (scenarioParams ℝ 2 1 3).logsigma ∧
      Real.log (transformedParameters realLib (scenarioParams ℝ 2 1 3)).2.1
        = (scenarioParams ℝ 2 1 3).loglambda ∧
      Real.log (transformedParameters realLib (scenarioParams ℝ 2 1 3)).2.2
        = (scenarioParams ℝ 2 1 3).logomega)) :=
  ⟨by simp [InputShapes, PredictorShapes, PenaltyShapes, scenarioData, scenarioParams],
    C14_parameter_transform (plainEnv ℝ 0) (scenarioData ℝ 1 [2]) (scenarioParams ℝ 2 1 3)
      (by simp [InputShapes, PredictorShapes, PenaltyShapes, scenarioData, scenarioParams])⟩

end SnTps

namespace SnTps

/-- Once the penalty loop has run through, nothing of what it computed enters the result: the
evaluation is a function of the remaining parts alone. -/
theorem objective_function_forgets_penalty {α : Type} [Field α] (L : Lib α) (E : Env α)
    (D D2 : Data α) (P : Params α) (st st2 : α × Int)
    (hpen : penaltyLoop D.S P.smoothCoefs P.loglambda (L.exp P.loglambda) D.Sdims = some st)
    (hpen2 : penaltyLoop D2.S P.smoothCoefs P.loglambda (L.exp P.loglambda) D2.Sdims = some st2)
    (hlik : D2.likelihood = D.likelihood) (hcpue : D2.cpue = D.cpue)
    (hmu : linearPredictor D2 P = linearPredictor D P) (hrep : D2.tpsReport = D.tpsReport) :
    objective_function L E D2 P = objective_function L E D P := by
  cases hm : linearPredictor D P with
  | none =>
    rw [hm] at hmu
    simp [objective_function, hpen, hpen2, hm, hmu]
  | some mu =>
    rw [hm] at hmu
    cases hz : vsub D.cpue mu with
    | none => simp [objective_function, hpen, hpen2, hm, hmu, hz, hcpue]
    | some z =>
      cases hspl : matVec D.tpsReport P.smoothCoefs with
      | none => simp [objective_function, hpen, hpen2, hm, hmu, hz, hspl, hcpue, hrep]
      | some spl =>
        rw [objective_function_of_parts L E D P st mu z spl hpen hm hz hspl,
          objective_function_of_parts L E D2 P st2 mu z spl hpen2 hmu (by rw [hcpue]; exact hz)
            (by rw [hrep]; exact hspl)]
        simp [logLikVector, hlik, hcpue]

/-- C15. For fixed response, factors, depth, design matrices, mode and parameters, any two
penalty structures `(S, Sdims)` and `(S2, Sdims2)` on which the penalty loop runs without error
give the same evaluation: the same returned `jnll` and the same reported `nll` (the whole
results coincide). The returned objective does not depend on the penalty matrix or on the block
dimensions. -/
theorem C15_objective_ignores_penalty {α : Type} [Field α] (L : Lib α) (E : Env α) (D : Data α)
    (P : Params α) (S2 : Mat α) (Sdims2 : List Int) (st st2 : α × Int)
    (hpen : penaltyLoop D.S P.smoothCoefs P.loglambda (L.exp P.loglambda) D.Sdims = some st)
    (hpen2 : penaltyLoop S2 P.smoothCoefs P.loglambda (L.exp P.loglambda) Sdims2 = some st2) :
    objective_function L E { D with S := S2, Sdims := Sdims2 } P = objective_function L E D P ∧
    (objective_function L E { D with S := S2, Sdims := Sdims2 } P).map
        (fun r => (r.jnll, r.report.nll))
      = (objective_function L E D P).map (fun r => (r.jnll, r.report.nll)) := by
  have h := objective_function_forgets_penalty L E D { D with S := S2, Sdims := Sdims2 } P st st2
    hpen hpen2 rfl rfl rfl rfl
  exact ⟨h, by rw [h]⟩

/-- C15 (witness): in the spec's scenario with `loglambda = 1`, block dimensions `[2]` on the
identity leave `-1` on the accumulator and block dimensions `[1]` on a matrix of fives leave
`-0.5`; both evaluations return, with the same result. -/
theorem C15_objective_ignores_penalty_witness :
    (penaltyLoop (scenarioData ℝ 1 [2]).S (scenarioParams ℝ 1 0 0).smoothCoefs
        (scenarioParams ℝ 1 0 0).loglambda (realLib.exp (scenarioParams ℝ 1 0 0).loglambda)
        (scenarioData ℝ 1 [2]).Sdims = some (-(0.5 * 2 * 1), 2) ∧
      penaltyLoop ⟨2, 2, fun _ _ => 5⟩ (scenarioParams ℝ 1 0 0).smoothCoefs
        (scenarioParams ℝ 1 0 0).loglambda (realLib.exp (scenarioParams ℝ 1 0 0).loglambda)
        [1] = some (-(0.5 * 1), 1)) ∧
    (objective_function realLib (plainEnv ℝ 0)
        { scenarioData ℝ 1 [2] with S := ⟨2, 2, fun _ _ => 5⟩, Sdims := [1] }
        (scenarioParams ℝ 1 0 0)
      = objective_function realLib (plainEnv ℝ 0) (scenarioData ℝ 1 [2])
          (scenarioParams ℝ 1 0 0) ∧
    (objective_function realLib (plainEnv ℝ 0)
        { scenarioData ℝ 1 [2] with S := ⟨2, 2, fun _ _ => 5⟩, Sdims := [1] }
        (scenarioParams ℝ 1 0 0)).map (fun r => (r.jnll, r.report.nll))
      = (objective_function realLib (plainEnv ℝ 0) (scenarioData ℝ 1 [2])
          (scenarioParams ℝ 1 0 0)).map (fun r => (r.jnll, r.report.nll))) := by
  have h1 : penaltyLoop (scenarioData ℝ 1 [2]).S (scenarioParams ℝ 1 0 0).smoothCoefs
      (scenarioParams ℝ 1 0 0).loglambda (realLib.exp (scenarioParams ℝ 1 0 0).loglambda)
      (scenarioData ℝ 1 [2]).Sdims = some (-(0.5 * 2 * 1), 2) :=
    scenario_penaltyLoop_two 1 1 0 0 _
  have h2 : penaltyLoop ⟨2, 2, fun _ _ => 5⟩ (scenarioParams ℝ 1 0 0).smoothCoefs
      (scenarioParams ℝ 1 0 0).loglambda (realLib.exp (scenarioParams ℝ 1 0 0).loglambda)
      [1] = some (-(0.5 * 1), 1) := by
    have := penaltyLoop_ofNat (⟨2, 2, fun _ _ => 5⟩ : Mat ℝ)
      (scenarioParams ℝ 1 0 0).smoothCoefs (scenarioParams ℝ 1 0 0).loglambda
      (realLib.exp (scenarioParams ℝ 1 0 0).loglambda) [1] (by simp [scenarioParams])
      (by simp) (by simp)
    simpa [penaltySum, blockTerm, blockQuad, blockOffset, scenarioParams,
      Finset.sum_range_succ] using this
  exact ⟨⟨h1, h2⟩,
    C15_objective_ignores_penalty realLib (plainEnv ℝ 0) (scenarioData ℝ 1 [2])
      (scenarioParams ℝ 1 0 0) ⟨2, 2, fun _ _ => 5⟩ [1] _ _ h1 h2⟩

end SnTps

namespace SnTps

/-- The returned objective written out over the reals, with the prior on `lambda` separated
from the rest of the prior term. -/
theorem jnll_as_function_of_loglambda (E : Env ℝ) (D : Data ℝ) (P : Params ℝ) (ll : ℝ)
    (mu z : List ℝ) :
    -(logLikVector realLib E D { P with loglambda := ll } mu z).sum
        - (P.logsigma + P.logomega + ll)
        + priors realLib { P with loglambda := ll } (Real.exp P.logsigma) (Real.exp ll)
            (Real.exp P.logomega)
      = (-(logLikVector realLib E D P mu z).sum - (P.logsigma + P.logomega)
          + (priors realLib P (Real.exp P.logsigma) (Real.exp P.loglambda) (Real.exp P.logomega)
              + realLib.dnorm (Real.exp P.loglambda) 0 1)
          + Real.log (Real.sqrt (2 * Real.pi)))
        + 0.5 * Real.exp (2 * ll) - ll := by
  have hexp : Real.exp (2 * ll) = Real.exp ll * Real.exp ll := by
    rw [← Real.exp_add]
    congr 1
    ring
  have hlik : logLikVector realLib E D { P with loglambda := ll } mu z
      = logLikVector realLib E D P mu z := rfl
  rw [hlik, hexp]
  simp only [priors, realLib, Real.log_one, sub_zero, div_one]
  ring

/-- C16. For every data set, every mode and every fixed value of all other parameters, on
well-shaped inputs the evaluation returns for every `loglambda`, and the returned objective as
a function of `loglambda` alone is a constant plus `0.5 * exp(2 * loglambda) - loglambda`; it is
therefore strictly larger at every `loglambda ≠ 0` than at `loglambda = 0` (`lambda = 1`),
whatever the data, the spline coefficients and the penalty matrix are. -/
theorem C16_objective_in_loglambda (E : Env ℝ) (D : Data ℝ) (P : Params ℝ)
    (h : InputShapes D P) :
    ∃ C : ℝ,
      (∀ ll : ℝ, ∃ r, objective_function realLib E D { P with loglambda := ll } = some r ∧
        r.jnll = C + 0.5 * Real.exp (2 * ll) - ll) ∧
      (∀ ll r r0, ll ≠ 0 →
        objective_function realLib E D { P with loglambda := ll } = some r →
        objective_function realLib E D { P with loglambda := 0 } = some r0 →
        r0.jnll < r.jnll) := by
  obtain ⟨r1, mu, z, _, hmu, _, _, hz, _, _, _, _, _⟩ := objective_function_spec realLib E D P h
  set C : ℝ := -(logLikVector realLib E D P mu z).sum - (P.logsigma + P.logomega)
      + (priors realLib P (Real.exp P.logsigma) (Real.exp P.loglambda) (Real.exp P.logomega)
          + realLib.dnorm (Real.exp P.loglambda) 0 1)
      + Real.log (Real.sqrt (2 * Real.pi)) with hC
  have hval : ∀ ll : ℝ, ∀ r, objective_function realLib E D { P with loglambda := ll } = some r →
      r.jnll = C + 0.5 * Real.exp (2 * ll) - ll := by
    intro ll r hr
    obtain ⟨st, mu2, z2, spl, _, hmu2, hz2, _, _, hll, _, _, hnll, hj⟩ :=
      objective_function_parts realLib E D { P with loglambda := ll } r hr
    have e1 : mu2 = mu := by
      have : linearPredictor D { P with loglambda := ll } = linearPredictor D P := rfl
      rw [this, hmu] at hmu2
      exact (Option.some.inj hmu2).symm
    subst e1
    have e2 : z2 = z := by
      rw [hz] at hz2
      exact (Option.some.inj hz2).symm
    subst e2
    rw [hj, hnll, hll, hC]
    exact jnll_as_function_of_loglambda E D P ll mu2 z2
  refine ⟨C, ?_, ?_⟩
  · intro ll
    have hsh : InputShapes D { P with loglambda := ll } := h
    obtain ⟨r, hr⟩ := objective_function_isSome realLib E D { P with loglambda := ll } hsh
    exact ⟨r, hr, hval ll r hr⟩
  · intro ll r r0 hne hr hr0
    rw [hval ll r hr, hval 0 r0 hr0]
    have hlt : 2 * ll + 1 < Real.exp (2 * ll) :=
      Real.add_one_lt_exp (mul_ne_zero two_ne_zero hne)
    simp only [mul_zero, Real.exp_zero]
    linarith

/-- C16 (witness): the spec's scenario. -/
theorem C16_objective_in_loglambda_witness :
    InputShapes (scenarioData ℝ 1 [2]) (scenarioParams ℝ 2 1 3) ∧
    ∃ C : ℝ,
      (∀ ll : ℝ, ∃ r, objective_function realLib (plainEnv ℝ 0) (scenarioData ℝ 1 [2])
          { scenarioParams ℝ 2 1 3 with loglambda := ll } = some r ∧
        r.jnll = C + 0.5 * Real.exp (2 * ll) - ll) ∧
      (∀ ll r r0, ll ≠ 0 →
        objective_function realLib (plainEnv ℝ 0) (scenarioData ℝ 1 [2])
          { scenarioParams ℝ 2 1 3 with loglambda := ll } = some r →
        objective_function realLib (plainEnv ℝ 0) (scenarioData ℝ 1 [2])
          { scenarioParams ℝ 2 1 3 with loglambda := 0 } = some r0 →
        r0.jnll < r.jnll) :=
  ⟨by simp [InputShapes, PredictorShapes, PenaltyShapes, scenarioData, scenarioParams],
    C16_objective_in_loglambda (plainEnv ℝ 0) (scenarioData ℝ 1 [2]) (scenarioParams ℝ 2 1 3)
      (by simp [InputShapes, PredictorShapes, PenaltyShapes, scenarioData, scenarioParams])⟩

/-- C17. In every likelihood mode, a simulation call on well-shaped inputs with at least one
observation reports `cpue_sim`, whose entry `i` is the draw `rgamma(1/sigma^2, mu_i*sigma^2)`:
a gamma distribution with shape `1/sigma^2` and scale `mu_i*sigma^2`, whose mean, shape times
scale, is `mu_i`. For every real `mu_i` this is strictly less than, hence different from, the
mean `exp(mu_i)` of the gamma density the mode-2 likelihood uses (shape `1/sigma^2`, scale
`exp(mu_i)*sigma^2`). -/
theorem C17_simulation_mean (E : Env ℝ) (D : Data ℝ) (P : Params ℝ)
    (hs : E.do_simulate = true) (hn : 0 < D.cpue.length) (h : InputShapes D P) :
    ∃ r sim, objective_function realLib E D P = some r ∧ r.report.cpue_sim = some sim ∧
      sim.length = D.cpue.length ∧
      ∀ i, i < D.cpue.length →
        sim.getD i 0 = E.rgamma i (1 / (Real.exp P.logsigma) ^ 2)
          (muEntry D P i * (Real.exp P.logsigma) ^ 2) ∧
        (1 / (Real.exp P.logsigma) ^ 2) * (muEntry D P i * (Real.exp P.logsigma) ^ 2)
          = muEntry D P i ∧
        (1 / (Real.exp P.logsigma) ^ 2) * (Real.exp (muEntry D P i) * (Real.exp P.logsigma) ^ 2)
          = Real.exp (muEntry D P i) ∧
        muEntry D P i < Real.exp (muEntry D P i) ∧
        muEntry D P i ≠ Real.exp (muEntry D P i) := by
  obtain ⟨r, hr⟩ := objective_function_isSome realLib E D P h
  obtain ⟨st, mu, z, spl, _, hmu, _, _, _, _, _, hsim, _, _⟩ :=
    objective_function_parts realLib E D P r hr
  obtain ⟨hlen, _, _, _, _, _, hent⟩ := linearPredictor_eq_some D P mu hmu
  have hy := h.1.1
  have hpos : Real.exp P.logsigma ≠ 0 := (Real.exp_pos _).ne.symm
  refine ⟨r, (List.range D.cpue.length).map fun i =>
    E.rgamma i (1 / (realLib.exp P.logsigma) ^ 2) (mu.getD i 0 * (realLib.exp P.logsigma) ^ 2),
    hr, ?_, ?_, ?_⟩
  · rw [hsim]
    simp only [simulate, hs, hn, and_self, if_true]
  · simp
  · intro i hi
    have hlt : muEntry D P i < Real.exp (muEntry D P i) := by
      have := Real.add_one_le_exp (muEntry D P i)
      linarith
    refine ⟨?_, by field_simp, by field_simp, hlt, hlt.ne⟩
    rw [List.getD_eq_getElem _ 0 (by simp [hi])]
    simp only [List.getElem_map, List.getElem_range]
    rw [hent i (by omega)]
    rfl

/-- C17 (witness): a simulation call on the spec's scenario under mode 2. -/
theorem C17_simulation_mean_witness :
    ((⟨fun _ => 0, true, fun _ a b => a * b⟩ : Env ℝ).do_simulate = true ∧
      0 < (scenarioData ℝ 2 [2]).cpue.length ∧
      InputShapes (scenarioData ℝ 2 [2]) (scenarioParams ℝ 0 1 0)) ∧
    ∃ r sim, objective_function realLib ⟨fun _ => 0, true, fun _ a b => a * b⟩
        (scenarioData ℝ 2 [2]) (scenarioParams ℝ 0 1 0) = some r ∧
      r.report.cpue_sim = some sim ∧ sim.length = (scenarioData ℝ 2 [2]).cpue.length ∧
      ∀ i, i < (scenarioData ℝ 2 [2]).cpue.length →
        sim.getD i 0 = (⟨fun _ => 0, true, fun _ a b => a * b⟩ : Env ℝ).rgamma i
          (1 / (Real.exp (scenarioParams ℝ 0 1 0).logsigma) ^ 2)
          (muEntry (scenarioData ℝ 2 [2]) (scenarioParams ℝ 0 1 0) i
            * (Real.exp (scenarioParams ℝ 0 1 0).logsigma) ^ 2) ∧
        (1 / (Real.exp (scenarioParams ℝ 0 1 0).logsigma) ^ 2)
            * (muEntry (scenarioData ℝ 2 [2]) (scenarioParams ℝ 0 1 0) i
              * (Real.exp (scenarioParams ℝ 0 1 0).logsigma) ^ 2)
          = muEntry (scenarioData ℝ 2 [2]) (scenarioParams ℝ 0 1 0) i ∧
        (1 / (Real.exp (scenarioParams ℝ 0 1 0).logsigma) ^ 2)
            * (Real.exp (muEntry (scenarioData ℝ 2 [2]) (scenarioParams ℝ 0 1 0) i)
              * (Real.exp (scenarioParams ℝ 0 1 0).logsigma) ^ 2)
          = Real.exp (muEntry (scenarioData ℝ 2 [2]) (scenarioParams ℝ 0 1 0) i) ∧
        muEntry (scenarioData ℝ 2 [2]) (scenarioParams ℝ 0 1 0) i
          < Real.exp (muEntry (scenarioData ℝ 2 [2]) (scenarioParams ℝ 0 1 0) i) ∧
        muEntry (scenarioData ℝ 2 [2]) (scenarioParams ℝ 0 1 0) i
          ≠ Real.exp (muEntry (scenarioData ℝ 2 [2]) (scenarioParams ℝ 0 1 0) i) :=
  ⟨⟨rfl, by simp [scenarioData],
      by simp [InputShapes, PredictorShapes, PenaltyShapes, scenarioData, scenarioParams]⟩,
    C17_simulation_mean ⟨fun _ => 0, true, fun _ a b => a * b⟩ (scenarioData ℝ 2 [2])
      (scenarioParams ℝ 0 1 0) rfl (by simp [scenarioData])
      (by simp [InputShapes, PredictorShapes, PenaltyShapes, scenarioData, scenarioParams])⟩

end SnTps

/-! ## Density validity -/

namespace SnTps

theorem obsLogDensity_mode1 (y mu sigma omega : ℝ) :
    logLikEntry realLib 1 [y] [mu] [y - mu] sigma omega 0 0
      = realLib.dnorm (Real.log y) mu sigma - Real.log y := by
  simp [logLikEntry, dlognorm]
  rfl

theorem obsLogDensity_mode2 (y mu sigma omega : ℝ) :
    logLikEntry realLib 2 [y] [mu] [y - mu] sigma omega 0 0
      = realLib.dgamma y (1 / sigma ^ 2) (Real.exp mu * sigma ^ 2) := by
  simp [logLikEntry]
  rfl

theorem obsLogDensity_mode3 (y mu sigma omega : ℝ) :
    logLikEntry realLib 3 [y] [mu] [y - mu] sigma omega 0 0
      = realLib.dsn ((y - mu) / sigma) omega - Real.log sigma := by
  simp [logLikEntry]
  rfl

/-- The lognormal density integrates to one over the positive reals. -/
theorem lognormal_integral (μ σ : ℝ) (hσ : 0 < σ) :
    ∫ y in Set.Ioi (0 : ℝ), Real.exp (realLib.dnorm (Real.log y) μ σ - Real.log y) = 1 := by
  have hv : (⟨σ ^ 2, sq_nonneg σ⟩ : NNReal) ≠ 0 := by
    intro h
    have := congrArg NNReal.toReal h
    simp at this
    exact hσ.ne.symm this
  have himg : Set.Ioi (0 : ℝ) = Set.image Real.exp Set.univ := by
    rw [Set.image_univ, Real.range_exp]
  rw [himg, MeasureTheory.integral_image_eq_integral_abs_deriv_smul MeasurableSet.univ
    (fun x _ => (Real.hasDerivAt_exp x).hasDerivWithinAt) Real.exp_injective.injOn]
  rw [MeasureTheory.Measure.restrict_univ,
    ← ProbabilityTheory.integral_gaussianPDFReal_eq_one μ hv]
  congr 1
  funext x
  rw [Real.log_exp, realLib_dnorm_eq_log_gaussianPDF x μ σ hσ, abs_of_pos (Real.exp_pos x),
    smul_eq_mul, Real.exp_sub,
    Real.exp_log (ProbabilityTheory.gaussianPDFReal_pos μ _ x hv)]
  field_simp

/-- The gamma density with shape `a` and scale `s` integrates to one over the positive reals. -/
theorem gamma_integral (a s : ℝ) (ha : 0 < a) (hs : 0 < s) :
    ∫ y in Set.Ioi (0 : ℝ), Real.exp (realLib.dgamma y a s) = 1 := by
  have hr : 0 < s⁻¹ := inv_pos.mpr hs
  have hG : 0 < Real.Gamma a := Real.Gamma_pos_of_pos ha
  have hpt : ∀ y ∈ Set.Ioi (0 : ℝ),
      Real.exp (realLib.dgamma y a s) = ProbabilityTheory.gammaPDFReal a s⁻¹ y := by
    intro y hy
    have hy0 : (0 : ℝ) < y := hy
    simp only [ProbabilityTheory.gammaPDFReal, if_pos hy0.le, realLib]
    rw [Real.rpow_def_of_pos hr, Real.rpow_def_of_pos hy0, Real.log_inv]
    rw [show -Real.log (Real.Gamma a) + (a - 1) * Real.log y - y / s - a * Real.log s
        = (-Real.log s * a) + (-Real.log (Real.Gamma a)) + (Real.log y * (a - 1))
          + (-(s⁻¹ * y)) by field_simp; ring]
    rw [Real.exp_add, Real.exp_add, Real.exp_add, Real.exp_neg (Real.log (Real.Gamma a)),
      Real.exp_log hG]
    ring
  rw [MeasureTheory.setIntegral_congr_fun measurableSet_Ioi hpt,
    ← MeasureTheory.integral_Ici_eq_integral_Ioi,
    MeasureTheory.setIntegral_eq_integral_of_forall_compl_eq_zero]
  · rw [MeasureTheory.integral_eq_lintegral_of_nonneg_ae
      (Filter.Eventually.of_forall (ProbabilityTheory.gammaPDFReal_nonneg ha hr))
      (ProbabilityTheory.measurable_gammaPDFReal a s⁻¹).aestronglyMeasurable]
    have := ProbabilityTheory.lintegral_gammaPDF_eq_one ha hr
    simp only [ProbabilityTheory.gammaPDF] at this
    rw [this]
    simp
  · intro x hx
    have : ¬ (0 ≤ x) := hx
    simp [ProbabilityTheory.gammaPDFReal, this]

theorem gaussianReal_std_Iio (x : ℝ) :
    ProbabilityTheory.gaussianReal 0 1 (Set.Iio x)
      = ProbabilityTheory.gaussianReal 0 1 (Set.Iic x) := by
  have hx : ProbabilityTheory.gaussianReal 0 1 {x} = 0 :=
    ProbabilityTheory.gaussianReal_absolutelyContinuous 0 (one_ne_zero : (1 : NNReal) ≠ 0)
      (by simp)
  rw [← Set.Iio_union_right, MeasureTheory.measure_union (by simp) (measurableSet_singleton x),
    hx, add_zero]

theorem gaussianReal_std_neg (x : ℝ) :
    ProbabilityTheory.gaussianReal 0 1 (Set.Iic (-x))
      = ProbabilityTheory.gaussianReal 0 1 (Set.Ici x) := by
  have hmap := ProbabilityTheory.gaussianReal_map_const_mul (μ := 0) (v := 1) (-1 : ℝ)
  have hq : (⟨(-1 : ℝ) ^ 2, sq_nonneg _⟩ : NNReal) * 1 = 1 := by
    ext
    simp
  rw [hq, mul_zero] at hmap
  conv_lhs => rw [← hmap]
  rw [MeasureTheory.Measure.map_apply (by fun_prop) measurableSet_Iic]
  congr 1
  ext y
  simp

/-- Symmetry of the standard normal distribution function. -/
theorem pnorm_neg (x : ℝ) : pnorm (-x) = 1 - pnorm x := by
  unfold pnorm
  rw [ProbabilityTheory.cdf_eq_toReal, ProbabilityTheory.cdf_eq_toReal, gaussianReal_std_neg,
    ← gaussianReal_std_Iio x, ← Set.compl_Iio,
    MeasureTheory.prob_compl_eq_one_sub measurableSet_Iio,
    ENNReal.toReal_sub_of_le MeasureTheory.prob_le_one ENNReal.one_ne_top]
  simp

theorem measurable_pnorm : Measurable pnorm := by
  unfold pnorm
  exact (ProbabilityTheory.monotone_cdf _).measurable

theorem integrable_skew (ω : ℝ) :
    MeasureTheory.Integrable
      (fun z => ProbabilityTheory.gaussianPDFReal 0 1 z * pnorm (ω * z)) := by
  have hm : Measurable (fun z : ℝ => pnorm (ω * z)) :=
    measurable_pnorm.comp (measurable_const_mul ω)
  have := MeasureTheory.Integrable.bdd_mul (ProbabilityTheory.integrable_gaussianPDFReal 0 1)
    hm.aestronglyMeasurable
    ⟨1, fun x => by
      rw [Real.norm_eq_abs, abs_of_nonneg (pnorm_pos _).le]
      exact ProbabilityTheory.cdf_le_one _ _⟩
  simpa [mul_comm] using this

theorem gaussianPDFReal_std_neg (z : ℝ) :
    ProbabilityTheory.gaussianPDFReal 0 1 (-z) = ProbabilityTheory.gaussianPDFReal 0 1 z := by
  simp [ProbabilityTheory.gaussianPDFReal]

/-- The standard skew-normal density `2 * phi(z) * Phi(omega * z)` has total mass one. -/
theorem skew_core (ω : ℝ) :
    ∫ z, ProbabilityTheory.gaussianPDFReal 0 1 z * pnorm (ω * z) = 1 / 2 := by
  have h1 := MeasureTheory.integral_neg_eq_self
    (fun z => ProbabilityTheory.gaussianPDFReal 0 1 z * pnorm (ω * z)) MeasureTheory.volume
  have h2 : (fun z : ℝ => ProbabilityTheory.gaussianPDFReal 0 1 (-z) * pnorm (ω * -z))
      = fun z => ProbabilityTheory.gaussianPDFReal 0 1 z
          - ProbabilityTheory.gaussianPDFReal 0 1 z * pnorm (ω * z) := by
    funext z
    rw [gaussianPDFReal_std_neg, mul_neg, pnorm_neg]
    ring
  simp only [h2] at h1
  rw [MeasureTheory.integral_sub (ProbabilityTheory.integrable_gaussianPDFReal 0 1)
      (integrable_skew ω),
    ProbabilityTheory.integral_gaussianPDFReal_eq_one 0 one_ne_zero] at h1
  linarith

end SnTps

namespace SnTps

theorem skew_density_pos (μ σ ω : ℝ) (hσ : 0 < σ) (y : ℝ) :
    0 < (2 / σ) * ProbabilityTheory.gaussianPDFReal 0 1 ((y - μ) / σ)
      * pnorm (ω * ((y - μ) / σ)) := by
  have h1 : 0 < ProbabilityTheory.gaussianPDFReal 0 1 ((y - μ) / σ) :=
    ProbabilityTheory.gaussianPDFReal_pos 0 1 _ one_ne_zero
  have h2 : 0 < pnorm (ω * ((y - μ) / σ)) := pnorm_pos _
  positivity

theorem integrable_skew_density (μ σ ω : ℝ) (hσ : 0 < σ) :
    MeasureTheory.Integrable (fun y => (2 / σ)
      * ProbabilityTheory.gaussianPDFReal 0 1 ((y - μ) / σ) * pnorm (ω * ((y - μ) / σ))) := by
  have h1 : MeasureTheory.Integrable
      (fun z => (2 / σ) * (ProbabilityTheory.gaussianPDFReal 0 1 z * pnorm (ω * z))) :=
    (integrable_skew ω).const_mul _
  have h2 := (h1.comp_div hσ.ne.symm).comp_sub_right μ
  refine h2.congr (Filter.Eventually.of_forall fun y => ?_)
  simp only [mul_assoc]

/-- The location-scale skew-normal density has total mass one over the real line. -/
theorem skew_integral (μ σ ω : ℝ) (hσ : 0 < σ) :
    ∫ y, (2 / σ) * ProbabilityTheory.gaussianPDFReal 0 1 ((y - μ) / σ)
      * pnorm (ω * ((y - μ) / σ)) = 1 := by
  have h1 := MeasureTheory.integral_sub_right_eq_self
    (fun x => (2 / σ) * ProbabilityTheory.gaussianPDFReal 0 1 (x / σ) * pnorm (ω * (x / σ))) μ
    (μ := MeasureTheory.volume)
  have h2 := MeasureTheory.Measure.integral_comp_div
    (fun z => (2 / σ) * ProbabilityTheory.gaussianPDFReal 0 1 z * pnorm (ω * z)) σ
  simp only at h1 h2
  rw [h1, h2, abs_of_pos hσ, smul_eq_mul]
  have h3 : (fun z => (2 / σ) * ProbabilityTheory.gaussianPDFReal 0 1 z * pnorm (ω * z))
      = fun z => (2 / σ) * (ProbabilityTheory.gaussianPDFReal 0 1 z * pnorm (ω * z)) := by
    funext z
    ring
  rw [h3, MeasureTheory.integral_mul_left, skew_core]
  field_simp

/-- The location-scale skew-normal density puts positive mass on the non-positive reals, so
over the positive reals it integrates to less than one. -/
theorem skew_positive_part_lt_one (μ σ ω : ℝ) (hσ : 0 < σ) :
    ∫ y in Set.Ioi (0 : ℝ), (2 / σ) * ProbabilityTheory.gaussianPDFReal 0 1 ((y - μ) / σ)
      * pnorm (ω * ((y - μ) / σ)) < 1 := by
  have hint := integrable_skew_density μ σ ω hσ
  have htot := skew_integral μ σ ω hσ
  have hsplit := MeasureTheory.integral_add_compl (measurableSet_Ioi (a := (0 : ℝ))) hint
  rw [htot, Set.compl_Ioi] at hsplit
  have hpos : 0 < ∫ y in Set.Iic (0 : ℝ), (2 / σ)
      * ProbabilityTheory.gaussianPDFReal 0 1 ((y - μ) / σ) * pnorm (ω * ((y - μ) / σ)) := by
    rw [MeasureTheory.setIntegral_pos_iff_support_of_nonneg_ae
      (Filter.Eventually.of_forall fun y => (skew_density_pos μ σ ω hσ y).le) hint.integrableOn]
    have hsupp : Function.support (fun y => (2 / σ)
        * ProbabilityTheory.gaussianPDFReal 0 1 ((y - μ) / σ) * pnorm (ω * ((y - μ) / σ)))
        = Set.univ := by
      ext y
      simp only [Function.mem_support, Set.mem_univ, iff_true]
      exact (skew_density_pos μ σ ω hσ y).ne.symm
    rw [hsupp, Set.univ_inter]
    simp
  linarith

/-- In mode 3 the exponential of the per-observation log-density is the location-scale
skew-normal density. -/
theorem exp_obsLogDensity_mode3 (mu sigma omega : ℝ) (hs : 0 < sigma) :
    (fun y => Real.exp (logLikEntry realLib 3 [y] [mu] [y - mu] sigma omega 0 0))
      = fun y => (2 / sigma) * ProbabilityTheory.gaussianPDFReal 0 1 ((y - mu) / sigma)
          * pnorm (omega * ((y - mu) / sigma)) := by
  funext y
  rw [obsLogDensity_mode3, dsn_sub_log_eq _ _ _ hs,
    Real.exp_log (skew_density_pos mu sigma omega hs y)]

/-- C13 (counterexample). In mode 3 with mean `0`, scale `1` and `omega = 1` the exponential of
the per-observation log-density, integrated over the positive responses, is not `1`. -/
theorem C13_skew_normal_mass_on_positive_responses :
    ∫ y in Set.Ioi (0 : ℝ), Real.exp (logLikEntry realLib 3 [y] [0] [y - 0] 1 1 0 0) ≠ 1 := by
  rw [exp_obsLogDensity_mode3 0 1 1 one_pos]
  exact (skew_positive_part_lt_one 0 1 1 one_pos).ne

/-- C13 (amended). At every fixed mean `mu` and scale `sigma > 0`, the exponential of the
per-observation log-density used in `log_lik` integrates to `1` over the strictly positive
responses in mode 1 (lognormal) and in mode 2 (gamma); in mode 3, for every `omega`, it
integrates to `1` over the whole real line of responses, and over the strictly positive
responses to less than `1`. -/
theorem C13_density_validity (mu sigma omega : ℝ) (hs : 0 < sigma) :
    (∫ y in Set.Ioi (0 : ℝ),
        Real.exp (logLikEntry realLib 1 [y] [mu] [y - mu] sigma omega 0 0) = 1) ∧
    (∫ y in Set.Ioi (0 : ℝ),
        Real.exp (logLikEntry realLib 2 [y] [mu] [y - mu] sigma omega 0 0) = 1) ∧
    (∫ y, Real.exp (logLikEntry realLib 3 [y] [mu] [y - mu] sigma omega 0 0) = 1) ∧
    (∫ y in Set.Ioi (0 : ℝ),
        Real.exp (logLikEntry realLib 3 [y] [mu] [y - mu] sigma omega 0 0) < 1) := by
  refine ⟨?_, ?_, ?_, ?_⟩
  · simp only [obsLogDensity_mode1]
    exact lognormal_integral mu sigma hs
  · simp only [obsLogDensity_mode2]
    exact gamma_integral _ _ (by positivity) (by positivity)
  · rw [exp_obsLogDensity_mode3 mu sigma omega hs]
    exact skew_integral mu sigma omega hs
  · rw [exp_obsLogDensity_mode3 mu sigma omega hs]
    exact skew_positive_part_lt_one mu sigma omega hs

/-- C13 (witness of the amended statement): mean `0`, scale `2`, `omega = 3`. -/
theorem C13_density_validity_witness :
    (0 : ℝ) < 2 ∧
    ((∫ y in Set.Ioi (0 : ℝ),
        Real.exp (logLikEntry realLib 1 [y] [0] [y - 0] 2 3 0 0) = 1) ∧
    (∫ y in Set.Ioi (0 : ℝ),
        Real.exp (logLikEntry realLib 2 [y] [0] [y - 0] 2 3 0 0) = 1) ∧
    (∫ y, Real.exp (logLikEntry realLib 3 [y] [0] [y - 0] 2 3 0 0) = 1) ∧
    (∫ y in Set.Ioi (0 : ℝ),
        Real.exp (logLikEntry realLib 3 [y] [0] [y - 0] 2 3 0 0) < 1)) :=
  ⟨by norm_num, C13_density_validity 0 2 3 (by norm_num)⟩

end SnTps
